import Mathlib

/-!
# Verification of the swissarmycli cluster aggregation engine

Shallow embedding of the aggregation code of the `k8s` package:

* `ShowNodeUsage` (node_usage.go): per-node request/limit/usage totals and
  percentage-of-capacity figures;
* `ShowPodDensity` (pod density file): per-node, per-owner pod/resource
  accumulation, owner resolution (`getPodOwnerFast`), ranking by pod count;
* `calculateCosts` (cost-estimation.go): monthly cost projection over a
  pricing table.

Modelling conventions:

* Go `float64` arithmetic on the finite values occurring here is modelled
  exactly over `ℚ`; the non-finite results of dividing a finite float by
  zero are modelled by the `Flt` type below.
* Kubernetes resource quantities (CPU milli-values, memory byte values,
  metric usage values) are non-negative and are modelled as `ℕ`.
* Go string-keyed maps are modelled as association lists (`mapGet`/`mapPut`,
  first-match lookup, in-place overwrite) where insertion order matters,
  and as update functions `String → Option α` (`StrMap`) where it does not.
  Go iterates maps in arbitrary order; the embedding emits records in the
  node-list order and all theorems quantify over list membership, which is
  invariant under reordering.
-/

/-- A Go `float64` value as it occurs in the aggregation code: finite values
are tracked exactly as rationals, and the non-finite results of dividing a
finite value by zero are tracked as `nan` / `inf` / `ninf`. -/
inductive Flt where
  | finite : ℚ → Flt
  | nan : Flt
  | inf : Flt
  | ninf : Flt
deriving DecidableEq, Repr

/-- Go (IEEE-754) `float64` division `x / y` for finite operands: exact when
the divisor is nonzero; `0/0` is NaN and `±x/0` is `±∞` (division by zero
does not panic in Go). -/
def fdiv (x y : ℚ) : Flt :=
  if y = 0 then
    if 0 < x then Flt.inf else if x < 0 then Flt.ninf else Flt.nan
  else Flt.finite (x / y)

/-- `metav1.OwnerReference` (the fields the code reads). -/
structure OwnerReference where
  kind : String
  name : String
deriving DecidableEq, Repr

/-- A container's resource requests/limits. `none` models a resource key
absent from the `Resources.Requests`/`Resources.Limits` map. CPU is in
milli-cores (`MilliValue()`), memory in bytes (`Value()`). -/
structure Container where
  cpuReqMilli : Option ℕ
  cpuLimMilli : Option ℕ
  memReqBytes : Option ℕ
  memLimBytes : Option ℕ
deriving DecidableEq, Repr

/-- `corev1.Pod` (the fields the aggregation reads). `phase` is the pod
phase string (`corev1.PodRunning = "Running"`), `nodeName` is
`Spec.NodeName` (`""` when unassigned). -/
structure Pod where
  name : String
  ns : String
  phase : String
  nodeName : String
  ownerReferences : List OwnerReference
  containers : List Container
deriving DecidableEq, Repr

/-- `corev1.Node` (the fields the aggregation reads): name and capacity. -/
structure Node where
  name : String
  cpuCapacityMilli : ℕ
  memCapacityBytes : ℕ
deriving DecidableEq, Repr

/-- `appsv1.ReplicaSet` (the fields the owner-index construction reads). -/
structure ReplicaSet where
  ns : String
  name : String
  ownerReferences : List OwnerReference
deriving DecidableEq, Repr

/-- One entry of the `NodeMetricsList` returned by the metrics backend. -/
structure NodeMetric where
  name : String
  cpuUsageMilli : ℕ
  memUsageBytes : ℕ
deriving DecidableEq, Repr

/-- The fetched snapshot after the hard kinds (nodes, pods, replica sets)
succeeded. `metrics = none` models the soft-failure cases: the metrics
client could not be created (`metricsClient == nil`) or the metrics list
call failed (`metricsErr != nil`); both make the code skip the metrics
join. -/
structure Snapshot where
  nodes : List Node
  pods : List Pod
  replicaSets : List ReplicaSet
  metrics : Option (List NodeMetric)
deriving DecidableEq, Repr

/-- Go map read `m[k]` on a string-keyed map modelled as an association
list (first match). -/
def mapGet {α : Type} : List (String × α) → String → Option α
  | [], _ => none
  | (k', v) :: rest, k => if k' = k then some v else mapGet rest k

/-- Go map write `m[k] = v`: overwrite in place, or append a new entry. -/
def mapPut {α : Type} : List (String × α) → String → α → List (String × α)
  | [], k, v => [(k, v)]
  | (k', v') :: rest, k, v =>
      if k' = k then (k, v) :: rest else (k', v') :: mapPut rest k v

/-- A Go map used only through point lookups (no iteration order needed). -/
abbrev StrMap (α : Type) : Type := String → Option α

/-- The empty map. -/
def StrMap.empty {α : Type} : StrMap α := fun _ => none

/-- Go map write `m[k] = v` on a `StrMap`. -/
def StrMap.put {α : Type} (m : StrMap α) (k : String) (v : α) : StrMap α :=
  fun k' => if k' = k then some v else m k'

/-- Builds `rsOwnerCache`: maps `"ns/rsName"` to the name of the Deployment
owning that ReplicaSet. For each ReplicaSet every owner reference of kind
`"Deployment"` writes the cache entry (a later one overwrites an earlier
one, as in the Go loop). -/
def buildRsOwnerCache (replicaSets : List ReplicaSet) : List (String × String) :=
  replicaSets.foldl (fun cache rs =>
    rs.ownerReferences.foldl (fun cache owner =>
      if owner.kind = "Deployment" then
        mapPut cache (rs.ns ++ "/" ++ rs.name) owner.name
      else cache) cache) []

/-- `getPodOwnerFast`: resolves a pod's logical owner from its first owner
reference using the pre-built ReplicaSet→Deployment cache. The Go loop
returns in its first iteration in every branch, so only the head of
`OwnerReferences` is consulted. -/
def getPodOwnerFast (pod : Pod) (rsOwnerCache : List (String × String)) :
    String × String :=
  match pod.ownerReferences with
  | owner :: _ =>
    if owner.kind = "ReplicaSet" then
      match mapGet rsOwnerCache (pod.ns ++ "/" ++ owner.name) with
      | some deploymentName => (deploymentName, "Deployment")
      | none => (owner.name, "ReplicaSet")
    else if owner.kind = "DaemonSet" then (owner.name, "DaemonSet")
    else if owner.kind = "StatefulSet" then (owner.name, "StatefulSet")
    else if owner.kind = "Job" then (owner.name, "Job")
    else (owner.name, owner.kind)
  | [] => (pod.name, "Pod")

/-- Contribution of an optional CPU quantity: `float64(q.MilliValue())/1000`
cores, or nothing when the resource key is absent. -/
def optCores : Option ℕ → ℚ
  | some m => (m : ℚ) / 1000
  | none => 0

/-- Contribution of an optional memory quantity:
`float64(q.Value())/(1024*1024*1024)` GiB, or nothing when absent. -/
def optGi : Option ℕ → ℚ
  | some b => (b : ℚ) / (1024 * 1024 * 1024)
  | none => 0

/-- Total CPU request cores over a pod's containers. The Go code adds each
container's contribution to the accumulators one container at a time; the
per-pod total is the same sum, reassociated. -/
def podCpuReq (p : Pod) : ℚ := (p.containers.map (fun c => optCores c.cpuReqMilli)).sum

/-- Total CPU limit cores over a pod's containers. -/
def podCpuLim (p : Pod) : ℚ := (p.containers.map (fun c => optCores c.cpuLimMilli)).sum

/-- Total memory request GiB over a pod's containers. -/
def podMemReq (p : Pod) : ℚ := (p.containers.map (fun c => optGi c.memReqBytes)).sum

/-- Total memory limit GiB over a pod's containers. -/
def podMemLim (p : Pod) : ℚ := (p.containers.map (fun c => optGi c.memLimBytes)).sum

/-- `NodeInfo` of the density code: per-node stats (owners are carried
separately in `NodeRecord` below, mirroring the `Owners` field). -/
structure NodeInfo where
  name : String
  podCount : ℕ
  cpuCapacity : ℚ
  cpuRequests : ℚ
  cpuLimits : ℚ
  cpuUsage : ℚ
  memoryCapacity : ℚ
  memoryRequests : ℚ
  memoryLimits : ℚ
  memoryUsage : ℚ
deriving DecidableEq, Repr

/-- `OwnerInfo` of the density code. -/
structure OwnerInfo where
  name : String
  type : String
  ns : String
  podCount : ℕ
  cpuRequest : ℚ
  cpuLimit : ℚ
  memRequest : ℚ
  memLimit : ℚ
deriving DecidableEq, Repr

/-- The fresh per-node stats record created from a node's capacity
(`&NodeInfo{Name: ..., CPUCapacity: ..., MemoryCapacity: ...}`). -/
def initNodeInfo (node : Node) : NodeInfo :=
  { name := node.name
    podCount := 0
    cpuCapacity := (node.cpuCapacityMilli : ℚ) / 1000
    cpuRequests := 0
    cpuLimits := 0
    cpuUsage := 0
    memoryCapacity := (node.memCapacityBytes : ℚ) / (1024 * 1024 * 1024)
    memoryRequests := 0
    memoryLimits := 0
    memoryUsage := 0 }

/-- The fresh owner record created on first sight of an aggregation key
(`&OwnerInfo{Name: owner, Type: ownerType, Namespace: pod.Namespace}`). -/
def newOwnerInfo (owner ownerType ns : String) : OwnerInfo :=
  { name := owner, type := ownerType, ns := ns, podCount := 0
    cpuRequest := 0, cpuLimit := 0, memRequest := 0, memLimit := 0 }

/-- One qualifying pod's mutation of its owner record: `PodCount++` and the
container resource sums added to the four resource fields. -/
def addPodToOwner (p : Pod) (o : OwnerInfo) : OwnerInfo :=
  { o with podCount := o.podCount + 1
           cpuRequest := o.cpuRequest + podCpuReq p
           cpuLimit := o.cpuLimit + podCpuLim p
           memRequest := o.memRequest + podMemReq p
           memLimit := o.memLimit + podMemLim p }

/-- One qualifying pod's mutation of the `nodeStats` entry of its node: the
container resource sums added to the four accumulated totals. -/
def addPodToNodeInfo (p : Pod) (ni : NodeInfo) : NodeInfo :=
  { ni with cpuRequests := ni.cpuRequests + podCpuReq p
            cpuLimits := ni.cpuLimits + podCpuLim p
            memoryRequests := ni.memoryRequests + podMemReq p
            memoryLimits := ni.memoryLimits + podMemLim p }

/-- The Go idiom `if m[key] == nil { m[key] = init }; info := m[key];
<mutate info>` on the inner (encounter-ordered) owner map: create the entry
on first sight, then apply the mutation, keeping the entry's position. -/
def upsertOwner (m : List (String × OwnerInfo)) (key : String)
    (fresh : OwnerInfo) (f : OwnerInfo → OwnerInfo) : List (String × OwnerInfo) :=
  match m with
  | [] => [(key, f fresh)]
  | (k, v) :: rest =>
      if k = key then (k, f v) :: rest else (k, v) :: upsertOwner rest key fresh f

/-- The two accumulation maps of `ShowPodDensity`: `nodeMap` (node →
owner-key → owner record) and `nodeStats` (node → stats). -/
structure DState where
  nodeMap : StrMap (List (String × OwnerInfo))
  nodeStats : StrMap NodeInfo

/-- Initialization loop over the node list: one empty owner map and one
fresh stats record per node name. -/
def initDState (nodes : List Node) : DState :=
  nodes.foldl (fun st node =>
    { nodeMap := st.nodeMap.put node.name []
      nodeStats := st.nodeStats.put node.name (initNodeInfo node) })
    ⟨StrMap.empty, StrMap.empty⟩

/-- One iteration of the pod loop of `ShowPodDensity`. Pods whose phase is
not `"Running"` or with an empty node name are skipped. For a running pod
assigned to a node absent from the node listing, the Go statement
`nodeMap[nodeName][key] = &OwnerInfo{...}` assigns into the nil inner map
returned by `nodeMap[nodeName]`, which panics at runtime; the panic is
modelled as `Except.error`. -/
def processPodDensity (rsOwnerCache : List (String × String)) (st : DState)
    (pod : Pod) : Except String DState :=
  if pod.phase ≠ "Running" ∨ pod.nodeName = "" then Except.ok st
  else
    let nodeName := pod.nodeName
    let res := getPodOwnerFast pod rsOwnerCache
    let key := pod.ns ++ "/" ++ res.2 ++ "/" ++ res.1
    match st.nodeMap nodeName with
    | none => Except.error "assignment to entry in nil map"
    | some ownerMap =>
      let ownerMap' := upsertOwner ownerMap key (newOwnerInfo res.1 res.2 pod.ns)
        (addPodToOwner pod)
      match st.nodeStats nodeName with
      | none => Except.error "invalid memory address or nil pointer dereference"
      | some ni =>
        Except.ok { nodeMap := st.nodeMap.put nodeName ownerMap'
                    nodeStats := st.nodeStats.put nodeName (addPodToNodeInfo pod ni) }

/-- The pod loop of `ShowPodDensity`, propagating a panic. -/
def processPodsDensity (rsOwnerCache : List (String × String)) (st : DState) :
    List Pod → Except String DState
  | [] => Except.ok st
  | pod :: rest =>
    match processPodDensity rsOwnerCache st pod with
    | Except.ok st' => processPodsDensity rsOwnerCache st' rest
    | Except.error e => Except.error e

/-- Metrics join (`if nodeMetrics != nil && metricsErr == nil`): for each
metric whose node exists in the stats map, overwrite the usage fields.
`metrics = none` covers both the nil client and the failed list call. -/
def applyMetricsDensity (st : StrMap NodeInfo) :
    Option (List NodeMetric) → StrMap NodeInfo
  | none => st
  | some ms => ms.foldl (fun st m =>
      match st m.name with
      | some ni => st.put m.name
          { ni with cpuUsage := (m.cpuUsageMilli : ℚ) / 1000
                    memoryUsage := (m.memUsageBytes : ℚ) / (1024 * 1024 * 1024) }
      | none => st) st

/-- One element of the `nodeInfos` slice assembled at the end of
`ShowPodDensity`: the node's stats (with `PodCount` set) and its owner
records. `owners` is kept in encounter (first-insertion) order; the Go
slice is filled by iterating the owner map in arbitrary order and is then
sorted in place — see `IsSortSliceOutput`. -/
structure NodeRecord where
  info : NodeInfo
  owners : List OwnerInfo
deriving DecidableEq, Repr

/-- The accumulation phase of `ShowPodDensity` (cache build, map
initialization, pod loop). -/
def densityState (snap : Snapshot) : Except String DState :=
  processPodsDensity (buildRsOwnerCache snap.replicaSets) (initDState snap.nodes)
    snap.pods

/-- `ShowPodDensity` after the fetch phase: accumulate, join metrics, then
assemble one `NodeRecord` per node with `totalPods` summed over the node's
owner records. Go iterates `nodeMap` in arbitrary order; the embedding
emits the records in node-list order (all claims are membership
statements, insensitive to the order). -/
def densityRecords (snap : Snapshot) : Except String (List NodeRecord) :=
  match densityState snap with
  | Except.error e => Except.error e
  | Except.ok st =>
    let stats := applyMetricsDensity st.nodeStats snap.metrics
    Except.ok (snap.nodes.filterMap (fun node =>
      match st.nodeMap node.name, stats node.name with
      | some ownerMap, some ni =>
        let owners := ownerMap.map (fun kv => kv.2)
        let totalPods := (owners.map (fun o => o.podCount)).sum
        some { info := { ni with podCount := totalPods }, owners := owners }
      | _, _ => none))

/-- Sortedness as established by `sort.Slice(owners, func(i, j int) bool {
return owners[i].PodCount > owners[j].PodCount })`: pod counts are
non-increasing along the slice. -/
def SortedByPodCountDesc (l : List OwnerInfo) : Prop :=
  List.Pairwise (fun a b => b.podCount ≤ a.podCount) l

instance : DecidablePred SortedByPodCountDesc := fun l =>
  List.instDecidablePairwise l

/-- Model of the owner list displayed for a node: the slice passed to
`sort.Slice` is filled by iterating a Go map (arbitrary order), and
`sort.Slice` is documented not to be stable, so the displayed list is some
permutation of the node's owner records that is sorted by the comparator —
and nothing more is guaranteed. -/
def IsSortSliceOutput (records out : List OwnerInfo) : Prop :=
  List.Perm records out ∧ SortedByPodCountDesc out

/-- The tie policy asserted by the specification (stability): for every pod
count, the records carrying that pod count appear in `out` in exactly
their encounter (first-insertion) order. -/
def TiesKeepOrder (records out : List OwnerInfo) : Prop :=
  ∀ k : ℕ, out.filter (fun o => o.podCount = k) =
    records.filter (fun o => o.podCount = k)

/-- The lowercase `nodeInfo` struct of `ShowNodeUsage` (node_usage.go). -/
structure NodeUsageInfo where
  name : String
  cpuCapacity : ℚ
  cpuRequests : ℚ
  cpuLimits : ℚ
  cpuUsage : ℚ
  memoryCapacity : ℚ
  memoryRequests : ℚ
  memoryLimits : ℚ
  memoryUsage : ℚ
deriving DecidableEq, Repr

/-- The fresh per-node record of `ShowNodeUsage`, built from capacity. -/
def initNodeUsageInfo (node : Node) : NodeUsageInfo :=
  { name := node.name
    cpuCapacity := (node.cpuCapacityMilli : ℚ) / 1000
    cpuRequests := 0
    cpuLimits := 0
    cpuUsage := 0
    memoryCapacity := (node.memCapacityBytes : ℚ) / (1024 * 1024 * 1024)
    memoryRequests := 0
    memoryLimits := 0
    memoryUsage := 0 }

/-- The `nodeStats` initialization loop of `ShowNodeUsage`. -/
def initUsageStats (nodes : List Node) : StrMap NodeUsageInfo :=
  nodes.foldl (fun m node => m.put node.name (initNodeUsageInfo node)) StrMap.empty

/-- One qualifying pod's mutation of its node's record in `ShowNodeUsage`:
the container request/limit sums added to the four totals. -/
def addPodToNodeUsage (p : Pod) (ni : NodeUsageInfo) : NodeUsageInfo :=
  { ni with cpuRequests := ni.cpuRequests + podCpuReq p
            memoryRequests := ni.memoryRequests + podMemReq p
            cpuLimits := ni.cpuLimits + podCpuLim p
            memoryLimits := ni.memoryLimits + podMemLim p }

/-- One iteration of the pod loop of `ShowNodeUsage`: pods not running or
with an empty node name are skipped; a pod whose node is absent from the
stats map is skipped as well (`if nodeInfo == nil { continue }`). -/
def processPodUsage (st : StrMap NodeUsageInfo) (pod : Pod) : StrMap NodeUsageInfo :=
  if pod.phase ≠ "Running" ∨ pod.nodeName = "" then st
  else
    match st pod.nodeName with
    | none => st
    | some ni => st.put pod.nodeName (addPodToNodeUsage pod ni)

/-- The pod loop of `ShowNodeUsage`. -/
def processPodsUsage (st : StrMap NodeUsageInfo) : List Pod → StrMap NodeUsageInfo
  | [] => st
  | pod :: rest => processPodsUsage (processPodUsage st pod) rest

/-- Metrics join of `ShowNodeUsage` (same shape as the density one). -/
def applyMetricsUsage (st : StrMap NodeUsageInfo) :
    Option (List NodeMetric) → StrMap NodeUsageInfo
  | none => st
  | some ms => ms.foldl (fun st m =>
      match st m.name with
      | some ni => st.put m.name
          { ni with cpuUsage := (m.cpuUsageMilli : ℚ) / 1000
                    memoryUsage := (m.memUsageBytes : ℚ) / (1024 * 1024 * 1024) }
      | none => st) st

/-- One output row of `ShowNodeUsage` (node_usage.go output loop). The
percentage fields carry the value of the Go expression `x*100/capacity`
(an unguarded float division); the usage columns carry `none` when the
code prints `"N/A"` and otherwise the usage value with its percentage. -/
structure UsageRow where
  name : String
  cpuCapacity : ℚ
  cpuRequests : ℚ
  cpuRequestsPct : Flt
  cpuLimits : ℚ
  cpuLimitsPct : Flt
  cpuUsageRaw : ℚ
  cpuUsageDisplay : Option (ℚ × Flt)
  memoryCapacity : ℚ
  memoryRequests : ℚ
  memoryRequestsPct : Flt
  memoryLimits : ℚ
  memoryLimitsPct : Flt
  memoryUsageRaw : ℚ
  memoryUsageDisplay : Option (ℚ × Flt)
deriving DecidableEq, Repr

/-- The row printed for one `nodeInfo` record: percentages are
`x*100/capacity`; the usage column shows a value (with percentage) only
when the accumulated usage is strictly positive and `"N/A"` (`none`)
otherwise. -/
def usageRowOf (ni : NodeUsageInfo) : UsageRow :=
  { name := ni.name
    cpuCapacity := ni.cpuCapacity
    cpuRequests := ni.cpuRequests
    cpuRequestsPct := fdiv (ni.cpuRequests * 100) ni.cpuCapacity
    cpuLimits := ni.cpuLimits
    cpuLimitsPct := fdiv (ni.cpuLimits * 100) ni.cpuCapacity
    cpuUsageRaw := ni.cpuUsage
    cpuUsageDisplay :=
      if 0 < ni.cpuUsage then some (ni.cpuUsage, fdiv (ni.cpuUsage * 100) ni.cpuCapacity)
      else none
    memoryCapacity := ni.memoryCapacity
    memoryRequests := ni.memoryRequests
    memoryRequestsPct := fdiv (ni.memoryRequests * 100) ni.memoryCapacity
    memoryLimits := ni.memoryLimits
    memoryLimitsPct := fdiv (ni.memoryLimits * 100) ni.memoryCapacity
    memoryUsageRaw := ni.memoryUsage
    memoryUsageDisplay :=
      if 0 < ni.memoryUsage then some (ni.memoryUsage, fdiv (ni.memoryUsage * 100) ni.memoryCapacity)
      else none }

/-- `ShowNodeUsage` after the fetch phase: build stats, fold the pod list,
join metrics, and emit one row per node. Go iterates the stats map in
arbitrary order; the embedding emits rows in node-list order. After the
hard kinds succeeded the Go function always returns nil (this embedding is
a total function). -/
def showNodeUsageRows (snap : Snapshot) : List UsageRow :=
  let st := processPodsUsage (initUsageStats snap.nodes) snap.pods
  let st := applyMetricsUsage st snap.metrics
  snap.nodes.filterMap (fun node => (st node.name).map usageRowOf)

/-- One per-node header block of the `ShowPodDensity` output: same
percentage and usage-display semantics as `UsageRow`. -/
structure DensityRow where
  name : String
  podCount : ℕ
  cpuCapacity : ℚ
  cpuRequests : ℚ
  cpuRequestsPct : Flt
  cpuLimits : ℚ
  cpuLimitsPct : Flt
  cpuUsageRaw : ℚ
  cpuUsageDisplay : Option (ℚ × Flt)
  memoryCapacity : ℚ
  memoryRequests : ℚ
  memoryRequestsPct : Flt
  memoryLimits : ℚ
  memoryLimitsPct : Flt
  memoryUsageRaw : ℚ
  memoryUsageDisplay : Option (ℚ × Flt)
deriving DecidableEq, Repr

/-- The header block printed for one density `NodeRecord`. -/
def densityRowOf (r : NodeRecord) : DensityRow :=
  { name := r.info.name
    podCount := r.info.podCount
    cpuCapacity := r.info.cpuCapacity
    cpuRequests := r.info.cpuRequests
    cpuRequestsPct := fdiv (r.info.cpuRequests * 100) r.info.cpuCapacity
    cpuLimits := r.info.cpuLimits
    cpuLimitsPct := fdiv (r.info.cpuLimits * 100) r.info.cpuCapacity
    cpuUsageRaw := r.info.cpuUsage
    cpuUsageDisplay :=
      if 0 < r.info.cpuUsage then
        some (r.info.cpuUsage, fdiv (r.info.cpuUsage * 100) r.info.cpuCapacity)
      else none
    memoryCapacity := r.info.memoryCapacity
    memoryRequests := r.info.memoryRequests
    memoryRequestsPct := fdiv (r.info.memoryRequests * 100) r.info.memoryCapacity
    memoryLimits := r.info.memoryLimits
    memoryLimitsPct := fdiv (r.info.memoryLimits * 100) r.info.memoryCapacity
    memoryUsageRaw := r.info.memoryUsage
    memoryUsageDisplay :=
      if 0 < r.info.memoryUsage then
        some (r.info.memoryUsage, fdiv (r.info.memoryUsage * 100) r.info.memoryCapacity)
      else none }

/-- The per-node header blocks of the `ShowPodDensity` output. -/
def densityRows (snap : Snapshot) : Except String (List DensityRow) :=
  match densityRecords snap with
  | Except.error e => Except.error e
  | Except.ok recs => Except.ok (recs.map densityRowOf)

/-- `EC2Instance` of cost-estimation.go. -/
structure EC2Instance where
  instanceType : String
  count : ℕ
  hourlyCost : ℚ
  monthlyCost : ℚ
deriving DecidableEq, Repr

/-- `EBSVolume` of cost-estimation.go (`SizeGB` is an `int64`). -/
structure EBSVolume where
  volumeType : String
  sizeGB : ℤ
  count : ℕ
  monthlyCost : ℚ
deriving DecidableEq, Repr

/-- `LoadBalancer` of cost-estimation.go (the Go field `Type`). -/
structure LoadBalancer where
  lbType : String
  count : ℕ
  hourlyCost : ℚ
  monthlyCost : ℚ
deriving DecidableEq, Repr

/-- `PricingConfig`: the three price maps of the embedded pricing table. -/
structure PricingConfig where
  ec2Pricing : List (String × ℚ)
  ebsPricing : List (String × ℚ)
  lbPricing : List (String × ℚ)
deriving DecidableEq, Repr

/-- `ClusterCostInfo` of cost-estimation.go. -/
structure ClusterCostInfo where
  region : String
  ec2Instances : List EC2Instance
  ebsVolumes : List EBSVolume
  loadBalancers : List LoadBalancer
  totalCost : ℚ
deriving DecidableEq, Repr

/-- The warning printed on an EC2 or EBS pricing miss
(`"Warning: No price found for %s, skipping"`). -/
def warnNoPrice (t : String) : String :=
  "Warning: No price found for " ++ t ++ ", skipping"

/-- The warning printed on a load-balancer pricing miss
(`"Warning: No price found for %s LB, skipping"`). -/
def warnNoPriceLB (t : String) : String :=
  "Warning: No price found for " ++ t ++ " LB, skipping"

/-- The EC2 loop of `calculateCosts`: prices every instance entry with a
table hit (`MonthlyCost = price * 730 * Count`), sums the priced monthly
costs into the running total, and emits one warning per miss. Returns the
updated entries, the total contribution, and the warnings in order. -/
def priceEC2Instances (pricing : List (String × ℚ)) :
    List EC2Instance → List EC2Instance × ℚ × List String
  | [] => ([], 0, [])
  | ins :: rest =>
    let acc := priceEC2Instances pricing rest
    match mapGet pricing ins.instanceType with
    | none => (ins :: acc.1, acc.2.1, warnNoPrice ins.instanceType :: acc.2.2)
    | some price =>
      let priced := { ins with hourlyCost := price
                               monthlyCost := price * 730 * (ins.count : ℚ) }
      (priced :: acc.1, priced.monthlyCost + acc.2.1, acc.2.2)

/-- The EBS loop of `calculateCosts`: `MonthlyCost = price * SizeGB`. -/
def priceEBSVolumes (pricing : List (String × ℚ)) :
    List EBSVolume → List EBSVolume × ℚ × List String
  | [] => ([], 0, [])
  | vol :: rest =>
    let acc := priceEBSVolumes pricing rest
    match mapGet pricing vol.volumeType with
    | none => (vol :: acc.1, acc.2.1, warnNoPrice vol.volumeType :: acc.2.2)
    | some price =>
      let priced := { vol with monthlyCost := price * (vol.sizeGB : ℚ) }
      (priced :: acc.1, priced.monthlyCost + acc.2.1, acc.2.2)

/-- The load-balancer loop of `calculateCosts`:
`MonthlyCost = price * 730 * Count`. -/
def priceLoadBalancers (pricing : List (String × ℚ)) :
    List LoadBalancer → List LoadBalancer × ℚ × List String
  | [] => ([], 0, [])
  | lb :: rest =>
    let acc := priceLoadBalancers pricing rest
    match mapGet pricing lb.lbType with
    | none => (lb :: acc.1, acc.2.1, warnNoPriceLB lb.lbType :: acc.2.2)
    | some price =>
      let priced := { lb with hourlyCost := price
                              monthlyCost := price * 730 * (lb.count : ℚ) }
      (priced :: acc.1, priced.monthlyCost + acc.2.1, acc.2.2)

/-- `calculateCosts`: runs the three pricing loops and accumulates
`TotalCost`. The warnings are returned (in print order) instead of being
written to standard output. -/
def calculateCosts (pricing : PricingConfig) (costInfo : ClusterCostInfo) :
    ClusterCostInfo × List String :=
  let ec2 := priceEC2Instances pricing.ec2Pricing costInfo.ec2Instances
  let ebs := priceEBSVolumes pricing.ebsPricing costInfo.ebsVolumes
  let lbs := priceLoadBalancers pricing.lbPricing costInfo.loadBalancers
  ({ costInfo with
      ec2Instances := ec2.1
      ebsVolumes := ebs.1
      loadBalancers := lbs.1
      totalCost := costInfo.totalCost + ec2.2.1 + ebs.2.1 + lbs.2.1 },
   ec2.2.2 ++ ebs.2.2 ++ lbs.2.2)

/-- The monthly cost an EC2 inventory entry contributes to the total: its
priced monthly cost on a table hit, `0` on a miss. -/
def ec2Contribution (pricing : List (String × ℚ)) (ins : EC2Instance) : ℚ :=
  match mapGet pricing ins.instanceType with
  | some price => price * 730 * (ins.count : ℚ)
  | none => 0

/-- The monthly cost an EBS inventory entry contributes to the total. -/
def ebsContribution (pricing : List (String × ℚ)) (vol : EBSVolume) : ℚ :=
  match mapGet pricing vol.volumeType with
  | some price => price * (vol.sizeGB : ℚ)
  | none => 0

/-- The monthly cost a load-balancer inventory entry contributes. -/
def lbContribution (pricing : List (String × ℚ)) (lb : LoadBalancer) : ℚ :=
  match mapGet pricing lb.lbType with
  | some price => price * 730 * (lb.count : ℚ)
  | none => 0

/-- Ground truth for the node aggregation: total CPU request cores of the
running pods assigned to `name` (the qualifying-pod filter of the loop). -/
def nodePodsCpuReq (pods : List Pod) (name : String) : ℚ :=
  ((pods.filter (fun p => p.phase = "Running" ∧ p.nodeName = name)).map podCpuReq).sum

/-- Ground truth: total CPU limit cores of the running pods on `name`. -/
def nodePodsCpuLim (pods : List Pod) (name : String) : ℚ :=
  ((pods.filter (fun p => p.phase = "Running" ∧ p.nodeName = name)).map podCpuLim).sum

/-- Ground truth: total memory request GiB of the running pods on `name`. -/
def nodePodsMemReq (pods : List Pod) (name : String) : ℚ :=
  ((pods.filter (fun p => p.phase = "Running" ∧ p.nodeName = name)).map podMemReq).sum

/-- Ground truth: total memory limit GiB of the running pods on `name`. -/
def nodePodsMemLim (pods : List Pod) (name : String) : ℚ :=
  ((pods.filter (fun p => p.phase = "Running" ∧ p.nodeName = name)).map podMemLim).sum

lemma StrMap.put_self {α : Type} (m : StrMap α) (k : String) (v : α) :
    m.put k v k = some v := by
  simp [StrMap.put]

lemma StrMap.put_ne {α : Type} (m : StrMap α) (k : String) (v : α) (k' : String)
    (h : k' ≠ k) : m.put k v k' = m k' := by
  simp [StrMap.put, h]

lemma foldl_put_notmem {α : Type} (f : Node → α) (nodes : List Node) (m : StrMap α)
    (name : String) (h : name ∉ nodes.map Node.name) :
    (nodes.foldl (fun acc node => acc.put node.name (f node)) m) name = m name := by
  induction nodes generalizing m with
  | nil => rfl
  | cons node rest ih =>
    simp only [List.map_cons, List.mem_cons] at h
    push_neg at h
    simp only [List.foldl_cons]
    rw [ih _ h.2, StrMap.put_ne _ _ _ _ h.1]

lemma foldl_put_mem {α : Type} (f : Node → α) (nodes : List Node) (m : StrMap α)
    (name : String) (h : name ∈ nodes.map Node.name) :
    ∃ node' ∈ nodes, node'.name = name ∧
      (nodes.foldl (fun acc node => acc.put node.name (f node)) m) name = some (f node') := by
  induction nodes generalizing m with
  | nil => simp at h
  | cons node rest ih =>
    simp only [List.foldl_cons]
    by_cases hr : name ∈ rest.map Node.name
    · obtain ⟨node', hmem, hn, heq⟩ := ih (m.put node.name (f node)) hr
      exact ⟨node', List.mem_cons_of_mem _ hmem, hn, heq⟩
    · have hname : name = node.name := by
        simp only [List.map_cons, List.mem_cons] at h
        tauto
      refine ⟨node, List.mem_cons_self _ _, hname.symm, ?_⟩
      rw [foldl_put_notmem _ _ _ _ hr, hname, StrMap.put_self]

lemma initUsageStats_notmem (nodes : List Node) (name : String)
    (h : name ∉ nodes.map Node.name) : initUsageStats nodes name = none := by
  unfold initUsageStats
  rw [foldl_put_notmem _ _ _ _ h]
  rfl

lemma initUsageStats_mem (nodes : List Node) (name : String)
    (h : name ∈ nodes.map Node.name) :
    ∃ node' ∈ nodes, node'.name = name ∧
      initUsageStats nodes name = some (initNodeUsageInfo node') := by
  unfold initUsageStats
  exact foldl_put_mem _ _ _ _ h

lemma nodePods_cons_skip (pod : Pod) (pods : List Pod) (name : String)
    (h : ¬ (pod.phase = "Running" ∧ pod.nodeName = name)) :
    nodePodsCpuReq (pod :: pods) name = nodePodsCpuReq pods name ∧
    nodePodsCpuLim (pod :: pods) name = nodePodsCpuLim pods name ∧
    nodePodsMemReq (pod :: pods) name = nodePodsMemReq pods name ∧
    nodePodsMemLim (pod :: pods) name = nodePodsMemLim pods name := by
  refine ⟨?_, ?_, ?_, ?_⟩ <;>
    simp [nodePodsCpuReq, nodePodsCpuLim, nodePodsMemReq, nodePodsMemLim,
      List.filter_cons, h]

lemma nodePods_cons_hit (pod : Pod) (pods : List Pod) (name : String)
    (h : pod.phase = "Running" ∧ pod.nodeName = name) :
    nodePodsCpuReq (pod :: pods) name = podCpuReq pod + nodePodsCpuReq pods name ∧
    nodePodsCpuLim (pod :: pods) name = podCpuLim pod + nodePodsCpuLim pods name ∧
    nodePodsMemReq (pod :: pods) name = podMemReq pod + nodePodsMemReq pods name ∧
    nodePodsMemLim (pod :: pods) name = podMemLim pod + nodePodsMemLim pods name := by
  refine ⟨?_, ?_, ?_, ?_⟩ <;>
    simp [nodePodsCpuReq, nodePodsCpuLim, nodePodsMemReq, nodePodsMemLim,
      List.filter_cons, h]

/-- Loop-to-sum correspondence for the `ShowNodeUsage` pod loop: the node
entry accumulates exactly the request/limit sums of the qualifying pods
assigned to it, all other fields untouched. -/
lemma processPodsUsage_lookup (pods : List Pod) (st : StrMap NodeUsageInfo)
    (name : String) (hname : name ≠ "") (ni : NodeUsageInfo)
    (h : st name = some ni) :
    processPodsUsage st pods name = some
      { ni with cpuRequests := ni.cpuRequests + nodePodsCpuReq pods name
                cpuLimits := ni.cpuLimits + nodePodsCpuLim pods name
                memoryRequests := ni.memoryRequests + nodePodsMemReq pods name
                memoryLimits := ni.memoryLimits + nodePodsMemLim pods name } := by
  induction pods generalizing st ni with
  | nil =>
    simpa [processPodsUsage, nodePodsCpuReq, nodePodsCpuLim, nodePodsMemReq,
      nodePodsMemLim] using h
  | cons pod rest ih =>
    by_cases hq : pod.phase ≠ "Running" ∨ pod.nodeName = ""
    · have hfilter : ¬ (pod.phase = "Running" ∧ pod.nodeName = name) := by
        rcases hq with h1 | h1
        · exact fun hc => h1 hc.1
        · exact fun hc => hname (hc.2 ▸ h1)
      obtain ⟨e1, e2, e3, e4⟩ := nodePods_cons_skip pod rest name hfilter
      rw [show processPodsUsage st (pod :: rest) = processPodsUsage st rest by
            simp [processPodsUsage, processPodUsage, hq],
          ih st ni h, e1, e2, e3, e4]
    · push_neg at hq
      by_cases hn : pod.nodeName = name
      · have hstep : processPodUsage st pod = st.put name (addPodToNodeUsage pod ni) := by
          simp only [processPodUsage, hq.1, hn]
          rw [if_neg (by simp [hq.1, hn, hname]), h]
        obtain ⟨e1, e2, e3, e4⟩ := nodePods_cons_hit pod rest name ⟨hq.1, hn⟩
        have hput : (st.put name (addPodToNodeUsage pod ni)) name =
            some (addPodToNodeUsage pod ni) := StrMap.put_self _ _ _
        rw [show processPodsUsage st (pod :: rest) =
              processPodsUsage (processPodUsage st pod) rest from rfl,
          hstep, ih _ _ hput, e1, e2, e3, e4]
        simp only [addPodToNodeUsage, Option.some.injEq]
        congr 1 <;> ring_nf
      · have hstep : (processPodUsage st pod) name = st name := by
          simp only [processPodUsage]
          rw [if_neg (by simp [hq.1, hq.2])]
          cases hsn : st pod.nodeName with
          | none => rfl
          | some nj => exact StrMap.put_ne _ _ _ _ (fun he => hn he.symm)
        have hfilter : ¬ (pod.phase = "Running" ∧ pod.nodeName = name) := by
          exact fun hc => hn hc.2
        obtain ⟨e1, e2, e3, e4⟩ := nodePods_cons_skip pod rest name hfilter
        rw [show processPodsUsage st (pod :: rest) =
              processPodsUsage (processPodUsage st pod) rest from rfl,
          ih _ ni (hstep.trans h), e1, e2, e3, e4]

/-- The pod loop only ever adds to the four request/limit accumulators: the
name, capacity and usage fields of a node entry are untouched. -/
lemma processPodsUsage_preserve (pods : List Pod) (st : StrMap NodeUsageInfo)
    (name : String) (ni : NodeUsageInfo) (h : st name = some ni) :
    ∃ ni', processPodsUsage st pods name = some ni' ∧ ni'.name = ni.name ∧
      ni'.cpuCapacity = ni.cpuCapacity ∧ ni'.memoryCapacity = ni.memoryCapacity ∧
      ni'.cpuUsage = ni.cpuUsage ∧ ni'.memoryUsage = ni.memoryUsage := by
  induction pods generalizing st ni with
  | nil => exact ⟨ni, h, rfl, rfl, rfl, rfl, rfl⟩
  | cons pod rest ih =>
    rw [show processPodsUsage st (pod :: rest) =
          processPodsUsage (processPodUsage st pod) rest from rfl]
    by_cases hq : pod.phase ≠ "Running" ∨ pod.nodeName = ""
    · rw [show processPodUsage st pod = st by simp [processPodUsage, hq]]
      exact ih st ni h
    · by_cases hn : pod.nodeName = name
      · cases hsn : st pod.nodeName with
        | none => rw [hn] at hsn; rw [hsn] at h; exact absurd h (by simp)
        | some nj =>
          rw [hn] at hsn
          have hnj : nj = ni := by
            rw [hsn] at h
            exact Option.some.inj h
          subst hnj
          have hstep : processPodUsage st pod = st.put name (addPodToNodeUsage pod nj) := by
            unfold processPodUsage
            rw [if_neg hq, hn, hsn]
          rw [hstep]
          obtain ⟨ni', h1, h2, h3, h4, h5, h6⟩ :=
            ih (st.put name (addPodToNodeUsage pod nj)) (addPodToNodeUsage pod nj)
              (StrMap.put_self _ _ _)
          exact ⟨ni', h1, h2, h3, h4, h5, h6⟩
      · have hstep : (processPodUsage st pod) name = st name := by
          simp only [processPodUsage, if_neg hq]
          cases hsn : st pod.nodeName with
          | none => rfl
          | some nj => exact StrMap.put_ne _ _ _ _ (fun he => hn he.symm)
        exact ih _ ni (hstep.trans h)

/-- All node entries have non-negative accumulated totals and usage. -/
def StatsNonneg (st : StrMap NodeUsageInfo) : Prop :=
  ∀ name ni, st name = some ni →
    0 ≤ ni.cpuRequests ∧ 0 ≤ ni.cpuLimits ∧ 0 ≤ ni.memoryRequests ∧
    0 ≤ ni.memoryLimits ∧ 0 ≤ ni.cpuUsage ∧ 0 ≤ ni.memoryUsage

lemma optCores_nonneg (q : Option ℕ) : 0 ≤ optCores q := by
  cases q <;> simp [optCores] <;> positivity

lemma optGi_nonneg (q : Option ℕ) : 0 ≤ optGi q := by
  cases q <;> simp [optGi] <;> positivity

lemma podSums_nonneg (p : Pod) :
    0 ≤ podCpuReq p ∧ 0 ≤ podCpuLim p ∧ 0 ≤ podMemReq p ∧ 0 ≤ podMemLim p := by
  refine ⟨?_, ?_, ?_, ?_⟩ <;> apply List.sum_nonneg <;> intro x hx <;>
    obtain ⟨c, _, rfl⟩ := List.mem_map.1 hx
  · exact optCores_nonneg _
  · exact optCores_nonneg _
  · exact optGi_nonneg _
  · exact optGi_nonneg _

lemma statsNonneg_init (nodes : List Node) : StatsNonneg (initUsageStats nodes) := by
  intro name ni h
  by_cases hmem : name ∈ nodes.map Node.name
  · obtain ⟨node', _, _, heq⟩ := initUsageStats_mem nodes name hmem
    rw [heq] at h
    injection h with h
    subst h
    simp [initNodeUsageInfo]
  · rw [initUsageStats_notmem nodes name hmem] at h
    exact absurd h (by simp)

lemma statsNonneg_put (st : StrMap NodeUsageInfo) (k : String) (v : NodeUsageInfo)
    (hst : StatsNonneg st)
    (hv : 0 ≤ v.cpuRequests ∧ 0 ≤ v.cpuLimits ∧ 0 ≤ v.memoryRequests ∧
      0 ≤ v.memoryLimits ∧ 0 ≤ v.cpuUsage ∧ 0 ≤ v.memoryUsage) :
    StatsNonneg (st.put k v) := by
  intro name ni h
  by_cases he : name = k
  · subst he; rw [StrMap.put_self] at h; injection h with h; subst h; exact hv
  · rw [StrMap.put_ne _ _ _ _ he] at h; exact hst name ni h

lemma statsNonneg_fold (pods : List Pod) (st : StrMap NodeUsageInfo)
    (hst : StatsNonneg st) : StatsNonneg (processPodsUsage st pods) := by
  induction pods generalizing st with
  | nil => exact hst
  | cons pod rest ih =>
    rw [show processPodsUsage st (pod :: rest) =
          processPodsUsage (processPodUsage st pod) rest from rfl]
    apply ih
    unfold processPodUsage
    split
    · exact hst
    · cases hsn : st pod.nodeName with
      | none => simpa [hsn] using hst
      | some nj =>
        simp only [hsn]
        apply statsNonneg_put _ _ _ hst
        obtain ⟨a1, a2, a3, a4, a5, a6⟩ := hst pod.nodeName nj hsn
        obtain ⟨b1, b2, b3, b4⟩ := podSums_nonneg pod
        refine ⟨?_, ?_, ?_, ?_, ?_, ?_⟩ <;>
          simp [addPodToNodeUsage] <;> positivity

lemma applyMetricsUsage_cons (st : StrMap NodeUsageInfo) (m : NodeMetric)
    (rest : List NodeMetric) :
    applyMetricsUsage st (some (m :: rest)) =
      applyMetricsUsage
        (match st m.name with
         | some ni => st.put m.name
             { ni with cpuUsage := (m.cpuUsageMilli : ℚ) / 1000
                       memoryUsage := (m.memUsageBytes : ℚ) / (1024 * 1024 * 1024) }
         | none => st) (some rest) := rfl

lemma statsNonneg_metrics (ms : List NodeMetric) (st : StrMap NodeUsageInfo)
    (hst : StatsNonneg st) : StatsNonneg (applyMetricsUsage st (some ms)) := by
  induction ms generalizing st with
  | nil => exact hst
  | cons m rest ih =>
    rw [applyMetricsUsage_cons]
    apply ih
    cases hsn : st m.name with
    | none => simpa [hsn] using hst
    | some nj =>
      simp only [hsn]
      apply statsNonneg_put _ _ _ hst
      obtain ⟨a1, a2, a3, a4, _, _⟩ := hst m.name nj hsn
      refine ⟨a1, a2, a3, a4, ?_, ?_⟩ <;> simp <;> positivity

/-- If every metric entry for `name` reports zero usage, and the entry's
usage is already zero, usage stays zero through the metrics join. -/
lemma applyMetricsUsage_zeroAt (ms : List NodeMetric) (st : StrMap NodeUsageInfo)
    (name : String) (ni : NodeUsageInfo) (h : st name = some ni)
    (hz : ∀ m ∈ ms, m.name = name → m.cpuUsageMilli = 0 ∧ m.memUsageBytes = 0)
    (h0 : ni.cpuUsage = 0 ∧ ni.memoryUsage = 0) :
    ∃ ni', applyMetricsUsage st (some ms) name = some ni' ∧
      ni'.name = ni.name ∧ ni'.cpuUsage = 0 ∧ ni'.memoryUsage = 0 := by
  induction ms generalizing st ni with
  | nil => exact ⟨ni, h, rfl, h0.1, h0.2⟩
  | cons m rest ih =>
    rw [applyMetricsUsage_cons]
    by_cases he : m.name = name
    · subst he
      rw [h]
      obtain ⟨hc, hb⟩ := hz m (List.mem_cons_self _ _) rfl
      refine ih _
        { ni with cpuUsage := (m.cpuUsageMilli : ℚ) / 1000
                  memoryUsage := (m.memUsageBytes : ℚ) / (1024 * 1024 * 1024) }
        (StrMap.put_self _ _ _) (fun m' hm' => hz m' (List.mem_cons_of_mem _ hm'))
        ⟨by simp [hc], by simp [hb]⟩
    · cases hsn : st m.name with
      | none =>
        exact ih st ni h (fun m' hm' => hz m' (List.mem_cons_of_mem _ hm')) h0
      | some nj =>
        refine ih _ ni ?_ (fun m' hm' => hz m' (List.mem_cons_of_mem _ hm')) h0
        have hput : (st.put m.name
            { nj with cpuUsage := (m.cpuUsageMilli : ℚ) / 1000
                      memoryUsage := (m.memUsageBytes : ℚ) / (1024 * 1024 * 1024) }) name
            = st name := StrMap.put_ne _ _ _ _ (fun hx => he hx.symm)
        exact hput.trans h

lemma initDState_nodeMap (nodes : List Node) :
    (initDState nodes).nodeMap =
      nodes.foldl (fun m node => m.put node.name ([] : List (String × OwnerInfo)))
        StrMap.empty := by
  suffices h : ∀ st : DState,
      (nodes.foldl (fun st node =>
        { nodeMap := st.nodeMap.put node.name []
          nodeStats := st.nodeStats.put node.name (initNodeInfo node) }) st).nodeMap =
      nodes.foldl (fun m node => m.put node.name []) st.nodeMap by
    exact h ⟨StrMap.empty, StrMap.empty⟩
  induction nodes with
  | nil => intro st; rfl
  | cons node rest ih => intro st; exact ih _

lemma initDState_nodeStats (nodes : List Node) :
    (initDState nodes).nodeStats =
      nodes.foldl (fun m node => m.put node.name (initNodeInfo node)) StrMap.empty := by
  suffices h : ∀ st : DState,
      (nodes.foldl (fun st node =>
        { nodeMap := st.nodeMap.put node.name []
          nodeStats := st.nodeStats.put node.name (initNodeInfo node) }) st).nodeStats =
      nodes.foldl (fun m node => m.put node.name (initNodeInfo node)) st.nodeStats by
    exact h ⟨StrMap.empty, StrMap.empty⟩
  induction nodes with
  | nil => intro st; rfl
  | cons node rest ih => intro st; exact ih _

/-- Sum of a rational projection over an owner map's records. -/
def ownersSum (f : OwnerInfo → ℚ) (m : List (String × OwnerInfo)) : ℚ :=
  (m.map (fun kv => f kv.2)).sum

lemma ownersSum_upsert (f : OwnerInfo → ℚ) (m : List (String × OwnerInfo))
    (key : String) (fresh : OwnerInfo) (g : OwnerInfo → OwnerInfo) (d : ℚ)
    (h0 : f fresh = 0) (hg : ∀ o, f (g o) = f o + d) :
    ownersSum f (upsertOwner m key fresh g) = ownersSum f m + d := by
  induction m with
  | nil => simp [upsertOwner, ownersSum, hg, h0]
  | cons kv rest ih =>
    by_cases he : kv.1 = key
    · simp only [upsertOwner, if_pos he, ownersSum, List.map_cons, List.sum_cons, hg]
      ring
    · simp only [upsertOwner, if_neg he, ownersSum, List.map_cons, List.sum_cons]
      have ih' : (List.map (fun kv => f kv.2) (upsertOwner rest key fresh g)).sum =
          (List.map (fun kv => f kv.2) rest).sum + d := ih
      rw [ih']
      ring

/-- The invariant relating the two accumulation maps of `ShowPodDensity`:
every node's stats totals equal the sums over its owner records. -/
def PairInv (nm : StrMap (List (String × OwnerInfo))) (stats : StrMap NodeInfo) : Prop :=
  ∀ name om ni, nm name = some om → stats name = some ni →
    ni.cpuRequests = ownersSum (fun o => o.cpuRequest) om ∧
    ni.cpuLimits = ownersSum (fun o => o.cpuLimit) om ∧
    ni.memoryRequests = ownersSum (fun o => o.memRequest) om ∧
    ni.memoryLimits = ownersSum (fun o => o.memLimit) om

lemma pairInv_init (nodes : List Node) :
    PairInv (initDState nodes).nodeMap (initDState nodes).nodeStats := by
  intro name om ni hnm hstat
  rw [initDState_nodeMap] at hnm
  rw [initDState_nodeStats] at hstat
  by_cases hmem : name ∈ nodes.map Node.name
  · obtain ⟨n1, _, _, he1⟩ := foldl_put_mem (fun _ => ([] : List (String × OwnerInfo)))
      nodes StrMap.empty name hmem
    obtain ⟨n2, _, _, he2⟩ := foldl_put_mem initNodeInfo nodes StrMap.empty name hmem
    rw [he1] at hnm
    rw [he2] at hstat
    injection hnm with hnm
    injection hstat with hstat
    subst hnm
    subst hstat
    simp [ownersSum, initNodeInfo]
  · rw [foldl_put_notmem _ _ _ _ hmem] at hnm
    exact absurd hnm (by simp [StrMap.empty])

lemma pairInv_step (cache : List (String × String)) (st st' : DState) (pod : Pod)
    (hinv : PairInv st.nodeMap st.nodeStats)
    (h : processPodDensity cache st pod = Except.ok st') :
    PairInv st'.nodeMap st'.nodeStats := by
  unfold processPodDensity at h
  by_cases hq : pod.phase ≠ "Running" ∨ pod.nodeName = ""
  · rw [if_pos hq] at h
    injection h with h
    subst h
    exact hinv
  · rw [if_neg hq] at h
    simp only [] at h
    cases hnm : st.nodeMap pod.nodeName with
    | none => rw [hnm] at h; exact absurd h (by simp)
    | some om =>
      rw [hnm] at h
      cases hstat : st.nodeStats pod.nodeName with
      | none => rw [hstat] at h; exact absurd h (by simp)
      | some ni =>
        rw [hstat] at h
        injection h with h
        subst h
        intro name om' ni' hnm' hstat'
        dsimp only at hnm' hstat'
        by_cases he : name = pod.nodeName
        · subst he
          rw [StrMap.put_self] at hnm' hstat'
          injection hnm' with hnm'
          injection hstat' with hstat'
          subst hnm'
          subst hstat'
          obtain ⟨i1, i2, i3, i4⟩ := hinv pod.nodeName om ni hnm hstat
          refine ⟨?_, ?_, ?_, ?_⟩
          · rw [ownersSum_upsert (fun o => o.cpuRequest) om _ _ _ (podCpuReq pod)
              (by simp [newOwnerInfo]) (fun o => by simp [addPodToOwner])]
            simp [addPodToNodeInfo, i1]
          · rw [ownersSum_upsert (fun o => o.cpuLimit) om _ _ _ (podCpuLim pod)
              (by simp [newOwnerInfo]) (fun o => by simp [addPodToOwner])]
            simp [addPodToNodeInfo, i2]
          · rw [ownersSum_upsert (fun o => o.memRequest) om _ _ _ (podMemReq pod)
              (by simp [newOwnerInfo]) (fun o => by simp [addPodToOwner])]
            simp [addPodToNodeInfo, i3]
          · rw [ownersSum_upsert (fun o => o.memLimit) om _ _ _ (podMemLim pod)
              (by simp [newOwnerInfo]) (fun o => by simp [addPodToOwner])]
            simp [addPodToNodeInfo, i4]
        · rw [StrMap.put_ne _ _ _ _ he] at hnm' hstat'
          exact hinv name om' ni' hnm' hstat'

lemma pairInv_fold (cache : List (String × String)) (pods : List Pod)
    (st st' : DState) (hinv : PairInv st.nodeMap st.nodeStats)
    (h : processPodsDensity cache st pods = Except.ok st') :
    PairInv st'.nodeMap st'.nodeStats := by
  induction pods generalizing st with
  | nil =>
    unfold processPodsDensity at h
    injection h with h
    subst h
    exact hinv
  | cons pod rest ih =>
    unfold processPodsDensity at h
    cases hstep : processPodDensity cache st pod with
    | error e => rw [hstep] at h; exact absurd h (by simp)
    | ok st1 =>
      rw [hstep] at h
      exact ih st1 (pairInv_step cache st st1 pod hinv hstep) h

lemma applyMetricsDensity_cons (stats : StrMap NodeInfo) (m : NodeMetric)
    (rest : List NodeMetric) :
    applyMetricsDensity stats (some (m :: rest)) =
      applyMetricsDensity
        (match stats m.name with
         | some ni => stats.put m.name
             { ni with cpuUsage := (m.cpuUsageMilli : ℚ) / 1000
                       memoryUsage := (m.memUsageBytes : ℚ) / (1024 * 1024 * 1024) }
         | none => stats) (some rest) := rfl

lemma pairInv_metrics (nm : StrMap (List (String × OwnerInfo)))
    (stats : StrMap NodeInfo) (metrics : Option (List NodeMetric))
    (hinv : PairInv nm stats) : PairInv nm (applyMetricsDensity stats metrics) := by
  cases metrics with
  | none => exact hinv
  | some ms =>
    induction ms generalizing stats with
    | nil => exact hinv
    | cons m rest ih =>
      rw [applyMetricsDensity_cons]
      apply ih
      cases hsn : stats m.name with
      | none => simpa [hsn] using hinv
      | some ni =>
        simp only [hsn]
        intro name om ni' hnm' hstat'
        by_cases he : name = m.name
        · subst he
          rw [StrMap.put_self] at hstat'
          injection hstat' with hstat'
          subst hstat'
          obtain ⟨i1, i2, i3, i4⟩ := hinv m.name om ni hnm' hsn
          exact ⟨i1, i2, i3, i4⟩
        · rw [StrMap.put_ne _ _ _ _ he] at hstat'
          exact hinv name om ni' hnm' hstat'

/-- Every emitted density record comes from the final accumulation state:
its owner list is the node's owner map (in encounter order) and its info is
the node's stats with `PodCount` set to the owner pod-count sum. -/
lemma densityRecords_mem (snap : Snapshot) (recs : List NodeRecord)
    (h : densityRecords snap = Except.ok recs) (r : NodeRecord) (hr : r ∈ recs) :
    ∃ st node ownerMap ni, densityState snap = Except.ok st ∧ node ∈ snap.nodes ∧
      st.nodeMap node.name = some ownerMap ∧
      applyMetricsDensity st.nodeStats snap.metrics node.name = some ni ∧
      r.owners = ownerMap.map (fun kv => kv.2) ∧
      r.info = { ni with podCount :=
        ((ownerMap.map (fun kv => kv.2)).map (fun o => o.podCount)).sum } := by
  unfold densityRecords at h
  cases hst : densityState snap with
  | error e => rw [hst] at h; exact absurd h (by simp)
  | ok st =>
    rw [hst] at h
    injection h with h
    subst h
    obtain ⟨node, hnode, hmatch⟩ := List.mem_filterMap.1 hr
    dsimp only at hmatch
    cases hnm : st.nodeMap node.name with
    | none => rw [hnm] at hmatch; exact absurd hmatch (by simp)
    | some om =>
      cases hstat : applyMetricsDensity st.nodeStats snap.metrics node.name with
      | none => rw [hnm, hstat] at hmatch; exact absurd hmatch (by simp)
      | some ni =>
        rw [hnm, hstat] at hmatch
        dsimp only at hmatch
        injection hmatch with hmatch
        exact ⟨st, node, om, ni, rfl, hnode, hnm, hstat, hmatch ▸ rfl, hmatch ▸ rfl⟩

/-- The pod-count field set during assembly equals the owner sum. -/
lemma densityRecords_podCount (snap : Snapshot) (recs : List NodeRecord)
    (h : densityRecords snap = Except.ok recs) (r : NodeRecord) (hr : r ∈ recs) :
    r.info.podCount = (r.owners.map (fun o => o.podCount)).sum := by
  obtain ⟨st, node, om, ni, _, _, _, _, howners, hinfo⟩ :=
    densityRecords_mem snap recs h r hr
  rw [hinfo, howners]

/-- All density stats entries have non-negative totals and usage. -/
def DStatsNonneg (st : StrMap NodeInfo) : Prop :=
  ∀ name ni, st name = some ni →
    0 ≤ ni.cpuRequests ∧ 0 ≤ ni.cpuLimits ∧ 0 ≤ ni.memoryRequests ∧
    0 ≤ ni.memoryLimits ∧ 0 ≤ ni.cpuUsage ∧ 0 ≤ ni.memoryUsage

lemma dStatsNonneg_put (st : StrMap NodeInfo) (k : String) (v : NodeInfo)
    (hst : DStatsNonneg st)
    (hv : 0 ≤ v.cpuRequests ∧ 0 ≤ v.cpuLimits ∧ 0 ≤ v.memoryRequests ∧
      0 ≤ v.memoryLimits ∧ 0 ≤ v.cpuUsage ∧ 0 ≤ v.memoryUsage) :
    DStatsNonneg (st.put k v) := by
  intro name ni h
  by_cases he : name = k
  · subst he; rw [StrMap.put_self] at h; injection h with h; subst h; exact hv
  · rw [StrMap.put_ne _ _ _ _ he] at h; exact hst name ni h

lemma dStatsNonneg_init (nodes : List Node) : DStatsNonneg (initDState nodes).nodeStats := by
  rw [initDState_nodeStats]
  intro name ni h
  by_cases hmem : name ∈ nodes.map Node.name
  · obtain ⟨node', _, _, heq⟩ := foldl_put_mem initNodeInfo nodes StrMap.empty name hmem
    rw [heq] at h
    injection h with h
    subst h
    simp [initNodeInfo]
  · rw [foldl_put_notmem _ _ _ _ hmem] at h
    exact absurd h (by simp [StrMap.empty])

lemma dStatsNonneg_step (cache : List (String × String)) (st st' : DState) (pod : Pod)
    (hst : DStatsNonneg st.nodeStats)
    (h : processPodDensity cache st pod = Except.ok st') :
    DStatsNonneg st'.nodeStats := by
  unfold processPodDensity at h
  by_cases hq : pod.phase ≠ "Running" ∨ pod.nodeName = ""
  · rw [if_pos hq] at h
    injection h with h
    subst h
    exact hst
  · rw [if_neg hq] at h
    simp only [] at h
    cases hnm : st.nodeMap pod.nodeName with
    | none => rw [hnm] at h; exact absurd h (by simp)
    | some om =>
      rw [hnm] at h
      cases hstat : st.nodeStats pod.nodeName with
      | none => rw [hstat] at h; exact absurd h (by simp)
      | some ni =>
        rw [hstat] at h
        injection h with h
        subst h
        dsimp only
        apply dStatsNonneg_put _ _ _ hst
        obtain ⟨a1, a2, a3, a4, a5, a6⟩ := hst pod.nodeName ni hstat
        obtain ⟨b1, b2, b3, b4⟩ := podSums_nonneg pod
        refine ⟨?_, ?_, ?_, ?_, ?_, ?_⟩ <;> simp [addPodToNodeInfo] <;> positivity

lemma dStatsNonneg_fold (cache : List (String × String)) (pods : List Pod)
    (st st' : DState) (hst : DStatsNonneg st.nodeStats)
    (h : processPodsDensity cache st pods = Except.ok st') :
    DStatsNonneg st'.nodeStats := by
  induction pods generalizing st with
  | nil =>
    unfold processPodsDensity at h
    injection h with h
    subst h
    exact hst
  | cons pod rest ih =>
    unfold processPodsDensity at h
    cases hstep : processPodDensity cache st pod with
    | error e => rw [hstep] at h; exact absurd h (by simp)
    | ok st1 =>
      rw [hstep] at h
      exact ih st1 (dStatsNonneg_step cache st st1 pod hst hstep) h

lemma dStatsNonneg_metrics (ms : List NodeMetric) (stats : StrMap NodeInfo)
    (hst : DStatsNonneg stats) : DStatsNonneg (applyMetricsDensity stats (some ms)) := by
  induction ms generalizing stats with
  | nil => exact hst
  | cons m rest ih =>
    rw [applyMetricsDensity_cons]
    apply ih
    cases hsn : stats m.name with
    | none => simpa [hsn] using hst
    | some nj =>
      simp only [hsn]
      apply dStatsNonneg_put _ _ _ hst
      obtain ⟨a1, a2, a3, a4, _, _⟩ := hst m.name nj hsn
      refine ⟨a1, a2, a3, a4, ?_, ?_⟩ <;> simp <;> positivity

/-- Every usage row is the printout of a final stats entry, whose
accumulated fields are all non-negative. -/
lemma showNodeUsageRows_mem (snap : Snapshot) (r : UsageRow)
    (hr : r ∈ showNodeUsageRows snap) :
    ∃ ni, r = usageRowOf ni ∧
      0 ≤ ni.cpuRequests ∧ 0 ≤ ni.cpuLimits ∧ 0 ≤ ni.memoryRequests ∧
      0 ≤ ni.memoryLimits ∧ 0 ≤ ni.cpuUsage ∧ 0 ≤ ni.memoryUsage := by
  unfold showNodeUsageRows at hr
  dsimp only at hr
  obtain ⟨node, hnode, hm⟩ := List.mem_filterMap.1 hr
  have hnn : StatsNonneg (applyMetricsUsage
      (processPodsUsage (initUsageStats snap.nodes) snap.pods) snap.metrics) := by
    cases hms : snap.metrics with
    | none =>
      exact statsNonneg_fold snap.pods _ (statsNonneg_init snap.nodes)
    | some ms =>
      exact statsNonneg_metrics ms _
        (statsNonneg_fold snap.pods _ (statsNonneg_init snap.nodes))
  cases hfin : applyMetricsUsage
      (processPodsUsage (initUsageStats snap.nodes) snap.pods) snap.metrics node.name with
  | none => rw [hfin] at hm; exact absurd hm (by simp)
  | some ni =>
    rw [hfin] at hm
    injection hm with hm
    exact ⟨ni, hm.symm, hnn node.name ni hfin⟩

/-- Every density header row is the printout of an emitted record whose
resource fields are all non-negative. -/
lemma densityRows_mem (snap : Snapshot) (rows : List DensityRow) (r : DensityRow)
    (h : densityRows snap = Except.ok rows) (hr : r ∈ rows) :
    ∃ rec : NodeRecord, r = densityRowOf rec ∧
      0 ≤ rec.info.cpuRequests ∧ 0 ≤ rec.info.cpuLimits ∧
      0 ≤ rec.info.memoryRequests ∧ 0 ≤ rec.info.memoryLimits ∧
      0 ≤ rec.info.cpuUsage ∧ 0 ≤ rec.info.memoryUsage := by
  unfold densityRows at h
  cases hrec : densityRecords snap with
  | error e => rw [hrec] at h; exact absurd h (by simp)
  | ok recs =>
    rw [hrec] at h
    injection h with h
    subst h
    obtain ⟨rec, hmem, hrow⟩ := List.mem_map.1 hr
    obtain ⟨st, node, om, ni, hst, _, _, hstat, _, hinfo⟩ :=
      densityRecords_mem snap recs hrec rec hmem
    have hnn : DStatsNonneg (applyMetricsDensity st.nodeStats snap.metrics) := by
      have hbase : DStatsNonneg st.nodeStats := by
        unfold densityState at hst
        exact dStatsNonneg_fold _ snap.pods _ st (dStatsNonneg_init snap.nodes) hst
      cases snap.metrics with
      | none => exact hbase
      | some ms => exact dStatsNonneg_metrics ms _ hbase
    obtain ⟨a1, a2, a3, a4, a5, a6⟩ := hnn node.name ni hstat
    refine ⟨rec, hrow.symm, ?_⟩
    rw [hinfo]
    exact ⟨a1, a2, a3, a4, a5, a6⟩

lemma fdiv_zero_den_nonneg (x : ℚ) (hx : 0 ≤ x) :
    fdiv (x * 100) 0 = Flt.nan ∨ fdiv (x * 100) 0 = Flt.inf := by
  unfold fdiv
  rcases lt_or_eq_of_le hx with h | h
  · right
    rw [if_pos rfl, if_pos (by positivity)]
  · left
    rw [if_pos rfl, if_neg (by rw [← h]; norm_num), if_neg (by rw [← h]; norm_num)]

lemma fdiv_zero_den_pos (x : ℚ) (hx : 0 < x) : fdiv (x * 100) 0 = Flt.inf := by
  unfold fdiv
  rw [if_pos rfl, if_pos (by positivity)]

/-- The three percentage positions of one resource dimension of a printed
row, when capacity is zero: requests/limits percentages are NaN or +∞, and
a displayed usage percentage is +∞. -/
lemma pct_zero_cap (cap req lim usg : ℚ) (hreq : 0 ≤ req) (hlim : 0 ≤ lim)
    (hcap : cap = 0) :
    (fdiv (req * 100) cap = Flt.nan ∨ fdiv (req * 100) cap = Flt.inf) ∧
    (fdiv (lim * 100) cap = Flt.nan ∨ fdiv (lim * 100) cap = Flt.inf) ∧
    (∀ u pct, (if 0 < usg then some (usg, fdiv (usg * 100) cap) else none) =
        some (u, pct) → pct = Flt.inf) := by
  subst hcap
  refine ⟨fdiv_zero_den_nonneg req hreq, fdiv_zero_den_nonneg lim hlim, ?_⟩
  intro u pct hdisp
  by_cases hu : 0 < usg
  · rw [if_pos hu] at hdisp
    injection hdisp with hdisp
    injection hdisp with h1 h2
    rw [← h2]
    exact fdiv_zero_den_pos usg hu
  · rw [if_neg hu] at hdisp
    exact absurd hdisp (by simp)

/-- Claim C1 (amended): the node and density printouts compute every
percentage by an unguarded float division, so for a node whose capacity in
a resource dimension is zero, the reported request/limit percentages in
that dimension are NaN (zero numerator) or +∞ (positive numerator) — never
the value 0 — and a displayed usage percentage is +∞; the computation is
total, so no runtime failure occurs. -/
theorem c1_zero_capacity_percentages (snap : Snapshot) :
    (∀ r ∈ showNodeUsageRows snap,
      (r.cpuCapacity = 0 →
        (r.cpuRequestsPct = Flt.nan ∨ r.cpuRequestsPct = Flt.inf) ∧
        (r.cpuLimitsPct = Flt.nan ∨ r.cpuLimitsPct = Flt.inf) ∧
        (∀ u pct, r.cpuUsageDisplay = some (u, pct) → pct = Flt.inf)) ∧
      (r.memoryCapacity = 0 →
        (r.memoryRequestsPct = Flt.nan ∨ r.memoryRequestsPct = Flt.inf) ∧
        (r.memoryLimitsPct = Flt.nan ∨ r.memoryLimitsPct = Flt.inf) ∧
        (∀ u pct, r.memoryUsageDisplay = some (u, pct) → pct = Flt.inf))) ∧
    (∀ rows, densityRows snap = Except.ok rows → ∀ r ∈ rows,
      (r.cpuCapacity = 0 →
        (r.cpuRequestsPct = Flt.nan ∨ r.cpuRequestsPct = Flt.inf) ∧
        (r.cpuLimitsPct = Flt.nan ∨ r.cpuLimitsPct = Flt.inf) ∧
        (∀ u pct, r.cpuUsageDisplay = some (u, pct) → pct = Flt.inf)) ∧
      (r.memoryCapacity = 0 →
        (r.memoryRequestsPct = Flt.nan ∨ r.memoryRequestsPct = Flt.inf) ∧
        (r.memoryLimitsPct = Flt.nan ∨ r.memoryLimitsPct = Flt.inf) ∧
        (∀ u pct, r.memoryUsageDisplay = some (u, pct) → pct = Flt.inf))) := by
  constructor
  · intro r hr
    obtain ⟨ni, rfl, n1, n2, n3, n4, n5, n6⟩ := showNodeUsageRows_mem snap r hr
    exact ⟨fun hcap => pct_zero_cap ni.cpuCapacity ni.cpuRequests ni.cpuLimits
        ni.cpuUsage n1 n2 hcap,
      fun hcap => pct_zero_cap ni.memoryCapacity ni.memoryRequests ni.memoryLimits
        ni.memoryUsage n3 n4 hcap⟩
  · intro rows hrows r hr
    obtain ⟨rec, rfl, n1, n2, n3, n4, n5, n6⟩ := densityRows_mem snap rows r hrows hr
    exact ⟨fun hcap => pct_zero_cap rec.info.cpuCapacity rec.info.cpuRequests
        rec.info.cpuLimits rec.info.cpuUsage n1 n2 hcap,
      fun hcap => pct_zero_cap rec.info.memoryCapacity rec.info.memoryRequests
        rec.info.memoryLimits rec.info.memoryUsage n3 n4 hcap⟩

/-- A snapshot whose single node reports zero CPU and memory capacity and
carries one running pod with nonzero requests/limits. -/
def snapC1 : Snapshot :=
  { nodes := [{ name := "n1", cpuCapacityMilli := 0, memCapacityBytes := 0 }]
    pods := [{ name := "p1", ns := "default", phase := "Running", nodeName := "n1"
               ownerReferences := []
               containers := [{ cpuReqMilli := some 500, cpuLimMilli := some 1000
                                memReqBytes := some 1073741824
                                memLimBytes := some 2147483648 }] }]
    replicaSets := []
    metrics := none }

/-- The single row `ShowNodeUsage` prints for `snapC1`. -/
def c1Row : UsageRow :=
  { name := "n1", cpuCapacity := 0, cpuRequests := 1/2, cpuRequestsPct := Flt.inf
    cpuLimits := 1, cpuLimitsPct := Flt.inf, cpuUsageRaw := 0, cpuUsageDisplay := none
    memoryCapacity := 0, memoryRequests := 1, memoryRequestsPct := Flt.inf
    memoryLimits := 2, memoryLimitsPct := Flt.inf, memoryUsageRaw := 0
    memoryUsageDisplay := none }

lemma c1RowsEq : showNodeUsageRows snapC1 = [c1Row] := by
  simp [showNodeUsageRows, processPodsUsage, processPodUsage, initUsageStats,
    StrMap.put, StrMap.empty, applyMetricsUsage, usageRowOf, addPodToNodeUsage,
    podCpuReq, podCpuLim, podMemReq, podMemLim, optCores, optGi, fdiv,
    initNodeUsageInfo, snapC1, c1Row, List.filterMap]
  norm_num

/-- Claim C1 is false as stated: on `snapC1` the zero-capacity node's CPU
request percentage is +∞ (the code divides by the zero capacity), not 0. -/
theorem c1_counterexample :
    ¬ (∀ r ∈ showNodeUsageRows snapC1, r.cpuCapacity = 0 →
        r.cpuRequestsPct = Flt.finite 0 ∧ r.cpuLimitsPct = Flt.finite 0 ∧
        r.memoryRequestsPct = Flt.finite 0 ∧ r.memoryLimitsPct = Flt.finite 0) := by
  intro hclaim
  have h := hclaim c1Row (by rw [c1RowsEq]; exact List.mem_singleton.2 rfl) rfl
  exact absurd h.1 (by simp [c1Row])

theorem c1_zero_capacity_percentages_witness :
    c1Row.cpuRequestsPct = Flt.nan ∨ c1Row.cpuRequestsPct = Flt.inf :=
  (((c1_zero_capacity_percentages snapC1).1 c1Row
    (by rw [c1RowsEq]; exact List.mem_singleton.2 rfl)).1 rfl).1

/-- Claim C2: after a successful density aggregation, every node record's
total pod count equals the sum of the pod counts of its owner records. -/
theorem c2_podcount_invariant (snap : Snapshot) (recs : List NodeRecord)
    (h : densityRecords snap = Except.ok recs) :
    ∀ r ∈ recs, r.info.podCount = (r.owners.map (fun o => o.podCount)).sum :=
  fun r hr => densityRecords_podCount snap recs h r hr

/-- A snapshot with one node and two running ownerless pods on it. -/
def snapC2 : Snapshot :=
  { nodes := [{ name := "n1", cpuCapacityMilli := 1000, memCapacityBytes := 1073741824 }]
    pods := [{ name := "p1", ns := "default", phase := "Running", nodeName := "n1"
               ownerReferences := [], containers := [] },
             { name := "p2", ns := "default", phase := "Running", nodeName := "n1"
               ownerReferences := [], containers := [] }]
    replicaSets := []
    metrics := none }

/-- The record the density aggregation produces for `snapC2`. -/
def c2Rec : NodeRecord :=
  { info := { name := "n1", podCount := 2, cpuCapacity := 1, cpuRequests := 0
              cpuLimits := 0, cpuUsage := 0, memoryCapacity := 1
              memoryRequests := 0, memoryLimits := 0, memoryUsage := 0 }
    owners := [{ name := "p1", type := "Pod", ns := "default", podCount := 1
                 cpuRequest := 0, cpuLimit := 0, memRequest := 0, memLimit := 0 },
               { name := "p2", type := "Pod", ns := "default", podCount := 1
                 cpuRequest := 0, cpuLimit := 0, memRequest := 0, memLimit := 0 }] }

lemma c2RecsEq : densityRecords snapC2 = Except.ok [c2Rec] := by
  simp [densityRecords, densityState, processPodsDensity, processPodDensity,
    initDState, buildRsOwnerCache, getPodOwnerFast, upsertOwner, newOwnerInfo,
    addPodToOwner, addPodToNodeInfo, initNodeInfo, applyMetricsDensity,
    StrMap.put, StrMap.empty, mapGet, mapPut,
    podCpuReq, podCpuLim, podMemReq, podMemLim, optCores, optGi,
    snapC2, c2Rec, List.filterMap]
  norm_num

theorem c2_podcount_invariant_witness :
    c2Rec.info.podCount = (c2Rec.owners.map (fun o => o.podCount)).sum :=
  c2_podcount_invariant snapC2 [c2Rec] c2RecsEq c2Rec (List.mem_singleton.2 rfl)

/-- Claim C10: after a successful density aggregation, every node record's
accumulated CPU/memory request and limit totals equal the sums of the
corresponding fields over the node's owner records. -/
theorem c10_node_totals_owner_sums (snap : Snapshot) (recs : List NodeRecord)
    (h : densityRecords snap = Except.ok recs) :
    ∀ r ∈ recs,
      r.info.cpuRequests = (r.owners.map (fun o => o.cpuRequest)).sum ∧
      r.info.cpuLimits = (r.owners.map (fun o => o.cpuLimit)).sum ∧
      r.info.memoryRequests = (r.owners.map (fun o => o.memRequest)).sum ∧
      r.info.memoryLimits = (r.owners.map (fun o => o.memLimit)).sum := by
  intro r hr
  obtain ⟨st, node, om, ni, hst, _, hnm, hstat, howners, hinfo⟩ :=
    densityRecords_mem snap recs h r hr
  have hinv : PairInv st.nodeMap (applyMetricsDensity st.nodeStats snap.metrics) := by
    apply pairInv_metrics
    unfold densityState at hst
    exact pairInv_fold _ snap.pods _ st (pairInv_init snap.nodes) hst
  obtain ⟨i1, i2, i3, i4⟩ := hinv node.name om ni hnm hstat
  rw [hinfo, howners]
  refine ⟨?_, ?_, ?_, ?_⟩
  · simpa [ownersSum, List.map_map] using i1
  · simpa [ownersSum, List.map_map] using i2
  · simpa [ownersSum, List.map_map] using i3
  · simpa [ownersSum, List.map_map] using i4

/-- A snapshot with one node and one running pod with resources. -/
def snapC10 : Snapshot :=
  { nodes := [{ name := "n1", cpuCapacityMilli := 2000, memCapacityBytes := 2147483648 }]
    pods := [{ name := "p1", ns := "default", phase := "Running", nodeName := "n1"
               ownerReferences := []
               containers := [{ cpuReqMilli := some 500, cpuLimMilli := some 1000
                                memReqBytes := some 1073741824
                                memLimBytes := some 2147483648 }] }]
    replicaSets := []
    metrics := none }

/-- The record the density aggregation produces for `snapC10`. -/
def c10Rec : NodeRecord :=
  { info := { name := "n1", podCount := 1, cpuCapacity := 2, cpuRequests := 1/2
              cpuLimits := 1, cpuUsage := 0, memoryCapacity := 2
              memoryRequests := 1, memoryLimits := 2, memoryUsage := 0 }
    owners := [{ name := "p1", type := "Pod", ns := "default", podCount := 1
                 cpuRequest := 1/2, cpuLimit := 1, memRequest := 1, memLimit := 2 }] }

lemma c10RecsEq : densityRecords snapC10 = Except.ok [c10Rec] := by
  simp [densityRecords, densityState, processPodsDensity, processPodDensity,
    initDState, buildRsOwnerCache, getPodOwnerFast, upsertOwner, newOwnerInfo,
    addPodToOwner, addPodToNodeInfo, initNodeInfo, applyMetricsDensity,
    StrMap.put, StrMap.empty, mapGet, mapPut,
    podCpuReq, podCpuLim, podMemReq, podMemLim, optCores, optGi,
    snapC10, c10Rec, List.filterMap]
  norm_num

theorem c10_node_totals_owner_sums_witness :
    c10Rec.info.cpuRequests = (c10Rec.owners.map (fun o => o.cpuRequest)).sum ∧
    c10Rec.info.cpuLimits = (c10Rec.owners.map (fun o => o.cpuLimit)).sum ∧
    c10Rec.info.memoryRequests = (c10Rec.owners.map (fun o => o.memRequest)).sum ∧
    c10Rec.info.memoryLimits = (c10Rec.owners.map (fun o => o.memLimit)).sum :=
  c10_node_totals_owner_sums snapC10 [c10Rec] c10RecsEq c10Rec (List.mem_singleton.2 rfl)

/-- Claim C3: owner resolution is the specified case analysis on the pod's
first owner reference: ReplicaSet with an index hit yields the indexed
Deployment, ReplicaSet with a miss degrades to the ReplicaSet itself, any
other kind passes name and kind through verbatim, and a pod without owner
references resolves to itself as a bare Pod. -/
theorem c3_owner_resolution (pod : Pod) (cache : List (String × String)) :
    (pod.ownerReferences = [] → getPodOwnerFast pod cache = (pod.name, "Pod")) ∧
    (∀ o rest, pod.ownerReferences = o :: rest →
      ((∀ d, o.kind = "ReplicaSet" →
          mapGet cache (pod.ns ++ "/" ++ o.name) = some d →
          getPodOwnerFast pod cache = (d, "Deployment")) ∧
       (o.kind = "ReplicaSet" →
          mapGet cache (pod.ns ++ "/" ++ o.name) = none →
          getPodOwnerFast pod cache = (o.name, "ReplicaSet")) ∧
       (o.kind ≠ "ReplicaSet" →
          getPodOwnerFast pod cache = (o.name, o.kind)))) := by
  constructor
  · intro h
    simp [getPodOwnerFast, h]
  · intro o rest h
    refine ⟨?_, ?_, ?_⟩
    · intro d hk hget
      simp [getPodOwnerFast, h, hk, hget]
    · intro hk hget
      simp [getPodOwnerFast, h, hk, hget]
    · intro hk
      simp only [getPodOwnerFast, h]
      rw [if_neg hk]
      by_cases h1 : o.kind = "DaemonSet"
      · rw [if_pos h1, h1]
      · rw [if_neg h1]
        by_cases h2 : o.kind = "StatefulSet"
        · rw [if_pos h2, h2]
        · rw [if_neg h2]
          by_cases h3 : o.kind = "Job"
          · rw [if_pos h3, h3]
          · rw [if_neg h3]

/-- A pod owned by an indexed ReplicaSet. -/
def c3Pod : Pod :=
  { name := "web-abc12", ns := "default", phase := "Running", nodeName := "n1"
    ownerReferences := [{ kind := "ReplicaSet", name := "web-rs" }]
    containers := [] }

/-- An owner index mapping that ReplicaSet to its Deployment. -/
def c3Cache : List (String × String) := [("default/web-rs", "web")]

theorem c3_owner_resolution_witness :
    getPodOwnerFast c3Pod c3Cache = ("web", "Deployment") :=
  ((c3_owner_resolution c3Pod c3Cache).2 { kind := "ReplicaSet", name := "web-rs" } []
    rfl).1 "web" rfl (by simp [c3Cache, c3Pod, mapGet])

/-- A snapshot whose only pod is running but assigned to a node that is
absent from the node listing. -/
def snapC4 : Snapshot :=
  { nodes := [{ name := "node-a", cpuCapacityMilli := 4000
                memCapacityBytes := 8589934592 }]
    pods := [{ name := "p1", ns := "default", phase := "Running"
               nodeName := "node-b", ownerReferences := [], containers := [] }]
    replicaSets := []
    metrics := none }

/-- Claim C4: on a running pod assigned to a node absent from the listing,
the density aggregation panics (`nodeMap[nodeName]` is a nil map and the
entry assignment panics), while the node-usage aggregation skips the pod
(its row keeps zero totals). The claim's "skipped, no runtime failure"
holds for the node aggregation but not for the density aggregation. -/
theorem c4_unknown_node_pod :
    densityRecords snapC4 = Except.error "assignment to entry in nil map" ∧
    (showNodeUsageRows snapC4).map
      (fun r => (r.name, r.cpuRequests, r.cpuLimits, r.memoryRequests, r.memoryLimits)) =
      [("node-a", 0, 0, 0, 0)] := by
  constructor
  · simp [densityRecords, densityState, processPodsDensity, processPodDensity,
      initDState, buildRsOwnerCache, getPodOwnerFast, upsertOwner, newOwnerInfo,
      addPodToOwner, addPodToNodeInfo, initNodeInfo, applyMetricsDensity,
      StrMap.put, StrMap.empty, mapGet, mapPut, snapC4]
  · simp [showNodeUsageRows, processPodsUsage, processPodUsage, initUsageStats,
      StrMap.put, StrMap.empty, applyMetricsUsage, usageRowOf, addPodToNodeUsage,
      podCpuReq, podCpuLim, podMemReq, podMemLim, optCores, optGi, fdiv,
      initNodeUsageInfo, snapC4, List.filterMap]

/-- Claim C5 (amended): any possible displayed owner list of a node is a
permutation of the node's owner records sorted by non-increasing pod
count, and its pod counts still sum to the node's total; the relative
order of records with equal pod counts is not specified (the slice is
filled from a map iteration and `sort.Slice` is not stable). -/
theorem c5_sorted_by_desc_podcount (snap : Snapshot) (recs : List NodeRecord)
    (h : densityRecords snap = Except.ok recs) (r : NodeRecord) (hr : r ∈ recs)
    (out : List OwnerInfo) (hout : IsSortSliceOutput r.owners out) :
    SortedByPodCountDesc out ∧ List.Perm r.owners out ∧
    (out.map (fun o => o.podCount)).sum = r.info.podCount := by
  refine ⟨hout.2, hout.1, ?_⟩
  rw [densityRecords_podCount snap recs h r hr]
  exact (hout.1.map (fun o => o.podCount)).sum_eq.symm

/-- A snapshot with one node and two running ownerless pods, producing two
owner records with equal (tied) pod counts. -/
def snapC5 : Snapshot :=
  { nodes := [{ name := "n1", cpuCapacityMilli := 1000, memCapacityBytes := 1073741824 }]
    pods := [{ name := "pa", ns := "default", phase := "Running", nodeName := "n1"
               ownerReferences := [], containers := [] },
             { name := "pb", ns := "default", phase := "Running", nodeName := "n1"
               ownerReferences := [], containers := [] }]
    replicaSets := []
    metrics := none }

/-- The owner record encountered first on `snapC5`. -/
def c5OwnerA : OwnerInfo :=
  { name := "pa", type := "Pod", ns := "default", podCount := 1
    cpuRequest := 0, cpuLimit := 0, memRequest := 0, memLimit := 0 }

/-- The owner record encountered second on `snapC5`. -/
def c5OwnerB : OwnerInfo :=
  { name := "pb", type := "Pod", ns := "default", podCount := 1
    cpuRequest := 0, cpuLimit := 0, memRequest := 0, memLimit := 0 }

/-- The record the density aggregation produces for `snapC5`. -/
def c5Rec : NodeRecord :=
  { info := { name := "n1", podCount := 2, cpuCapacity := 1, cpuRequests := 0
              cpuLimits := 0, cpuUsage := 0, memoryCapacity := 1
              memoryRequests := 0, memoryLimits := 0, memoryUsage := 0 }
    owners := [c5OwnerA, c5OwnerB] }

lemma c5RecsEq : densityRecords snapC5 = Except.ok [c5Rec] := by
  simp [densityRecords, densityState, processPodsDensity, processPodDensity,
    initDState, buildRsOwnerCache, getPodOwnerFast, upsertOwner, newOwnerInfo,
    addPodToOwner, addPodToNodeInfo, initNodeInfo, applyMetricsDensity,
    StrMap.put, StrMap.empty, mapGet, mapPut,
    podCpuReq, podCpuLim, podMemReq, podMemLim, optCores, optGi,
    snapC5, c5Rec, c5OwnerA, c5OwnerB, List.filterMap]
  norm_num

/-- Claim C5 is false as stated: on `snapC5` the reversed owner list is a
legal output of the unstable sort (a sorted permutation of the records)
but does not keep the tied records in encounter order. -/
theorem c5_counterexample :
    densityRecords snapC5 = Except.ok [c5Rec] ∧
    IsSortSliceOutput c5Rec.owners [c5OwnerB, c5OwnerA] ∧
    ¬ TiesKeepOrder c5Rec.owners [c5OwnerB, c5OwnerA] := by
  refine ⟨c5RecsEq, ⟨?_, ?_⟩, ?_⟩
  · show List.Perm [c5OwnerA, c5OwnerB] [c5OwnerB, c5OwnerA]
    exact List.Perm.swap c5OwnerB c5OwnerA []
  · unfold SortedByPodCountDesc
    simp [c5OwnerA, c5OwnerB]
  · intro hties
    have h1 := hties 1
    rw [show c5Rec.owners = [c5OwnerA, c5OwnerB] from rfl] at h1
    simp [c5OwnerA, c5OwnerB] at h1

theorem c5_sorted_by_desc_podcount_witness :
    SortedByPodCountDesc c5Rec.owners ∧ List.Perm c5Rec.owners c5Rec.owners ∧
    (c5Rec.owners.map (fun o => o.podCount)).sum = c5Rec.info.podCount :=
  c5_sorted_by_desc_podcount snapC5 [c5Rec] c5RecsEq c5Rec (List.mem_singleton.2 rfl)
    c5Rec.owners
    ⟨List.Perm.refl _, by unfold SortedByPodCountDesc; simp [c5Rec, c5OwnerA, c5OwnerB]⟩

lemma applyMetricsUsage_none (st : StrMap NodeUsageInfo) :
    applyMetricsUsage st none = st := rfl

/-- Claim C6: when the metrics fetch is unavailable or fails (while nodes and
pods succeeded), the node aggregation still completes: every printed row
shows usage as unavailable (`N/A`), and every node's request/limit totals
are fully populated from the pod data. -/
theorem c6_metrics_soft_failure (snap : Snapshot) (hm : snap.metrics = none)
    (hnames : ∀ node ∈ snap.nodes, node.name ≠ "") :
    (∀ r ∈ showNodeUsageRows snap,
      r.cpuUsageDisplay = none ∧ r.memoryUsageDisplay = none) ∧
    (∀ node ∈ snap.nodes, ∃ r ∈ showNodeUsageRows snap, r.name = node.name ∧
      r.cpuRequests = nodePodsCpuReq snap.pods node.name ∧
      r.cpuLimits = nodePodsCpuLim snap.pods node.name ∧
      r.memoryRequests = nodePodsMemReq snap.pods node.name ∧
      r.memoryLimits = nodePodsMemLim snap.pods node.name) := by
  constructor
  · intro r hr
    unfold showNodeUsageRows at hr
    dsimp only at hr
    simp only [hm, applyMetricsUsage_none] at hr
    obtain ⟨node, hnode, hmapped⟩ := List.mem_filterMap.1 hr
    obtain ⟨node', hnode', hname', hinit⟩ :=
      initUsageStats_mem snap.nodes node.name (List.mem_map_of_mem _ hnode)
    obtain ⟨ni', hni', _, _, _, hu1, hu2⟩ :=
      processPodsUsage_preserve snap.pods _ node.name _ hinit
    rw [hni'] at hmapped
    injection hmapped with hmapped
    subst hmapped
    have hz1 : ni'.cpuUsage = 0 := by rw [hu1]; simp [initNodeUsageInfo]
    have hz2 : ni'.memoryUsage = 0 := by rw [hu2]; simp [initNodeUsageInfo]
    constructor <;> simp [usageRowOf, hz1, hz2]
  · intro node hnode
    obtain ⟨node', hnode', hname', hinit⟩ :=
      initUsageStats_mem snap.nodes node.name (List.mem_map_of_mem _ hnode)
    have hfold := processPodsUsage_lookup snap.pods (initUsageStats snap.nodes)
      node.name (hnames node hnode) (initNodeUsageInfo node') hinit
    refine ⟨usageRowOf { initNodeUsageInfo node' with
        cpuRequests := (initNodeUsageInfo node').cpuRequests +
          nodePodsCpuReq snap.pods node.name
        cpuLimits := (initNodeUsageInfo node').cpuLimits +
          nodePodsCpuLim snap.pods node.name
        memoryRequests := (initNodeUsageInfo node').memoryRequests +
          nodePodsMemReq snap.pods node.name
        memoryLimits := (initNodeUsageInfo node').memoryLimits +
          nodePodsMemLim snap.pods node.name }, ?_, ?_, ?_, ?_, ?_, ?_⟩
    · unfold showNodeUsageRows
      dsimp only
      simp only [hm, applyMetricsUsage_none]
      exact List.mem_filterMap.2 ⟨node, hnode, by rw [hfold]; rfl⟩
    · simp [usageRowOf, initNodeUsageInfo, hname']
    · simp [usageRowOf, initNodeUsageInfo]
    · simp [usageRowOf, initNodeUsageInfo]
    · simp [usageRowOf, initNodeUsageInfo]
    · simp [usageRowOf, initNodeUsageInfo]

/-- A snapshot whose metrics fetch failed while one running pod carries
resource requests. -/
def snapC6 : Snapshot :=
  { nodes := [{ name := "n1", cpuCapacityMilli := 4000, memCapacityBytes := 8589934592 }]
    pods := [{ name := "p1", ns := "default", phase := "Running", nodeName := "n1"
               ownerReferences := []
               containers := [{ cpuReqMilli := some 500, cpuLimMilli := some 1000
                                memReqBytes := some 1073741824
                                memLimBytes := some 2147483648 }] }]
    replicaSets := []
    metrics := none }

theorem c6_metrics_soft_failure_witness :
    ∃ r ∈ showNodeUsageRows snapC6, r.name = "n1" ∧
      r.cpuRequests = nodePodsCpuReq snapC6.pods "n1" ∧
      r.cpuLimits = nodePodsCpuLim snapC6.pods "n1" ∧
      r.memoryRequests = nodePodsMemReq snapC6.pods "n1" ∧
      r.memoryLimits = nodePodsMemLim snapC6.pods "n1" :=
  (c6_metrics_soft_failure snapC6 rfl (by decide)).2
    { name := "n1", cpuCapacityMilli := 4000, memCapacityBytes := 8589934592 }
    (by decide)

/-- Claim C7 (amended): usage is displayed as a value only when the observed
usage is strictly positive. For a node whose live metrics are present but
report exactly zero usage, the printed usage state is `N/A` — the same
marker used when metrics are absent, not the value 0. -/
theorem c7_zero_usage_reported_unavailable (snap : Snapshot) (ms : List NodeMetric)
    (node : Node) (hm : snap.metrics = some ms) (hnode : node ∈ snap.nodes)
    (hz : ∀ m ∈ ms, m.name = node.name → m.cpuUsageMilli = 0 ∧ m.memUsageBytes = 0) :
    ∃ r ∈ showNodeUsageRows snap, r.name = node.name ∧
      r.cpuUsageDisplay = none ∧ r.memoryUsageDisplay = none := by
  obtain ⟨node', hnode', hname', hinit⟩ :=
    initUsageStats_mem snap.nodes node.name (List.mem_map_of_mem _ hnode)
  obtain ⟨ni1, hni1, hnm1, _, _, hu1, hu2⟩ :=
    processPodsUsage_preserve snap.pods _ node.name _ hinit
  have h01 : ni1.cpuUsage = 0 := by rw [hu1]; simp [initNodeUsageInfo]
  have h02 : ni1.memoryUsage = 0 := by rw [hu2]; simp [initNodeUsageInfo]
  obtain ⟨ni2, hni2, hnm2, hz1, hz2⟩ :=
    applyMetricsUsage_zeroAt ms _ node.name ni1 hni1 hz ⟨h01, h02⟩
  refine ⟨usageRowOf ni2, ?_, ?_, ?_, ?_⟩
  · unfold showNodeUsageRows
    dsimp only
    simp only [hm]
    exact List.mem_filterMap.2 ⟨node, hnode, by rw [hni2]; rfl⟩
  · rw [show (usageRowOf ni2).name = ni2.name from rfl, hnm2, hnm1]
    rw [show (initNodeUsageInfo node').name = node'.name from rfl, hname']
  · simp [usageRowOf, hz1]
  · simp [usageRowOf, hz2]

/-- A snapshot whose metrics are present and report exactly zero usage for
the only node. -/
def snapC7 : Snapshot :=
  { nodes := [{ name := "n1", cpuCapacityMilli := 4000, memCapacityBytes := 8589934592 }]
    pods := []
    replicaSets := []
    metrics := some [{ name := "n1", cpuUsageMilli := 0, memUsageBytes := 0 }] }

/-- Claim C7 is false as stated: on `snapC7` the metrics are present and
report zero usage, yet the printed usage state is the unavailable marker
(`N/A`), not the value 0: it is not distinct from the absent-metrics
state. -/
theorem c7_counterexample :
    snapC7.metrics = some [{ name := "n1", cpuUsageMilli := 0, memUsageBytes := 0 }] ∧
    (showNodeUsageRows snapC7).map (fun r => r.cpuUsageDisplay) = [none] ∧
    (showNodeUsageRows snapC7).map (fun r => r.memoryUsageDisplay) = [none] := by
  refine ⟨rfl, ?_, ?_⟩ <;>
    simp [showNodeUsageRows, processPodsUsage, processPodUsage, initUsageStats,
      StrMap.put, StrMap.empty, applyMetricsUsage, usageRowOf, addPodToNodeUsage,
      initNodeUsageInfo, snapC7, List.filterMap, fdiv]

theorem c7_zero_usage_reported_unavailable_witness :
    ∃ r ∈ showNodeUsageRows snapC7, r.name = "n1" ∧
      r.cpuUsageDisplay = none ∧ r.memoryUsageDisplay = none :=
  c7_zero_usage_reported_unavailable snapC7
    [{ name := "n1", cpuUsageMilli := 0, memUsageBytes := 0 }]
    { name := "n1", cpuCapacityMilli := 4000, memCapacityBytes := 8589934592 }
    rfl (by decide) (by decide)

/-- Characterization of the EC2 pricing loop: entries are priced pointwise,
the contribution is the sum of the priced entries' monthly costs, and the
warnings are exactly one per unpriced entry, in order. -/
lemma priceEC2Instances_spec (pricing : List (String × ℚ)) (items : List EC2Instance) :
    priceEC2Instances pricing items =
      (items.map (fun ins =>
         match mapGet pricing ins.instanceType with
         | none => ins
         | some price => { ins with hourlyCost := price
                                    monthlyCost := price * 730 * (ins.count : ℚ) }),
       (items.map (ec2Contribution pricing)).sum,
       (items.filter (fun ins => (mapGet pricing ins.instanceType).isNone)).map
         (fun ins => warnNoPrice ins.instanceType)) := by
  induction items with
  | nil => simp [priceEC2Instances]
  | cons ins rest ih =>
    simp only [priceEC2Instances, ih, List.map_cons, List.filter_cons, List.sum_cons]
    cases h : mapGet pricing ins.instanceType with
    | none => simp [h, ec2Contribution]
    | some price => simp [h, ec2Contribution]

/-- Characterization of the EBS pricing loop. -/
lemma priceEBSVolumes_spec (pricing : List (String × ℚ)) (items : List EBSVolume) :
    priceEBSVolumes pricing items =
      (items.map (fun vol =>
         match mapGet pricing vol.volumeType with
         | none => vol
         | some price => { vol with monthlyCost := price * (vol.sizeGB : ℚ) }),
       (items.map (ebsContribution pricing)).sum,
       (items.filter (fun vol => (mapGet pricing vol.volumeType).isNone)).map
         (fun vol => warnNoPrice vol.volumeType)) := by
  induction items with
  | nil => simp [priceEBSVolumes]
  | cons vol rest ih =>
    simp only [priceEBSVolumes, ih, List.map_cons, List.filter_cons, List.sum_cons]
    cases h : mapGet pricing vol.volumeType with
    | none => simp [h, ebsContribution]
    | some price => simp [h, ebsContribution]

/-- Characterization of the load-balancer pricing loop. -/
lemma priceLoadBalancers_spec (pricing : List (String × ℚ)) (items : List LoadBalancer) :
    priceLoadBalancers pricing items =
      (items.map (fun lb =>
         match mapGet pricing lb.lbType with
         | none => lb
         | some price => { lb with hourlyCost := price
                                   monthlyCost := price * 730 * (lb.count : ℚ) }),
       (items.map (lbContribution pricing)).sum,
       (items.filter (fun lb => (mapGet pricing lb.lbType).isNone)).map
         (fun lb => warnNoPriceLB lb.lbType)) := by
  induction items with
  | nil => simp [priceLoadBalancers]
  | cons lb rest ih =>
    simp only [priceLoadBalancers, ih, List.map_cons, List.filter_cons, List.sum_cons]
    cases h : mapGet pricing lb.lbType with
    | none => simp [h, lbContribution]
    | some price => simp [h, lbContribution]

/-- Claim C8: starting from a zero running total, the computed total is the
sum over all three categories of each entry's contribution — its priced
monthly cost on a table hit and `0` on a miss — and the warning list is
exactly one warning naming the type per unpriced inventory entry. -/
theorem c8_total_and_warnings (pricing : PricingConfig) (costInfo : ClusterCostInfo)
    (h0 : costInfo.totalCost = 0) :
    (calculateCosts pricing costInfo).1.totalCost =
        (costInfo.ec2Instances.map (ec2Contribution pricing.ec2Pricing)).sum
      + (costInfo.ebsVolumes.map (ebsContribution pricing.ebsPricing)).sum
      + (costInfo.loadBalancers.map (lbContribution pricing.lbPricing)).sum ∧
    (calculateCosts pricing costInfo).2 =
        (costInfo.ec2Instances.filter
          (fun i => (mapGet pricing.ec2Pricing i.instanceType).isNone)).map
          (fun i => warnNoPrice i.instanceType)
      ++ (costInfo.ebsVolumes.filter
          (fun v => (mapGet pricing.ebsPricing v.volumeType).isNone)).map
          (fun v => warnNoPrice v.volumeType)
      ++ (costInfo.loadBalancers.filter
          (fun l => (mapGet pricing.lbPricing l.lbType).isNone)).map
          (fun l => warnNoPriceLB l.lbType) := by
  unfold calculateCosts
  rw [priceEC2Instances_spec, priceEBSVolumes_spec, priceLoadBalancers_spec]
  constructor
  · dsimp only
    rw [h0, zero_add]
  · rfl

/-- The pricing table of the spec's scenario: only `"m5.large"` priced. -/
def c8Pricing : PricingConfig :=
  { ec2Pricing := [("m5.large", 96/1000)], ebsPricing := [], lbPricing := [] }

/-- The inventory of the spec's scenario: two priced `"m5.large"` nodes and
three nodes of the unpriced type `"m7g.custom"`. -/
def c8CostInfo : ClusterCostInfo :=
  { region := "us-east-1"
    ec2Instances := [{ instanceType := "m5.large", count := 2, hourlyCost := 0
                       monthlyCost := 0 },
                     { instanceType := "m7g.custom", count := 3, hourlyCost := 0
                       monthlyCost := 0 }]
    ebsVolumes := []
    loadBalancers := []
    totalCost := 0 }

theorem c8_total_and_warnings_witness :
    (calculateCosts c8Pricing c8CostInfo).1.totalCost =
        (c8CostInfo.ec2Instances.map (ec2Contribution c8Pricing.ec2Pricing)).sum
      + (c8CostInfo.ebsVolumes.map (ebsContribution c8Pricing.ebsPricing)).sum
      + (c8CostInfo.loadBalancers.map (lbContribution c8Pricing.lbPricing)).sum ∧
    (calculateCosts c8Pricing c8CostInfo).2 =
        (c8CostInfo.ec2Instances.filter
          (fun i => (mapGet c8Pricing.ec2Pricing i.instanceType).isNone)).map
          (fun i => warnNoPrice i.instanceType)
      ++ (c8CostInfo.ebsVolumes.filter
          (fun v => (mapGet c8Pricing.ebsPricing v.volumeType).isNone)).map
          (fun v => warnNoPrice v.volumeType)
      ++ (c8CostInfo.loadBalancers.filter
          (fun l => (mapGet c8Pricing.lbPricing l.lbType).isNone)).map
          (fun l => warnNoPriceLB l.lbType) :=
  c8_total_and_warnings c8Pricing c8CostInfo rfl

/-- Claim C9: after pricing, every line item whose type has a table price
carries the specified monthly cost: hourly price × 730 × count for compute
instances and load balancers, price-per-GB-month × total GB for block
storage (and the hourly price is recorded on the hourly-billed items). -/
theorem c9_monthly_cost_formulas (pricing : PricingConfig) (costInfo : ClusterCostInfo) :
    (∀ ins ∈ (calculateCosts pricing costInfo).1.ec2Instances, ∀ price,
      mapGet pricing.ec2Pricing ins.instanceType = some price →
      ins.monthlyCost = price * 730 * (ins.count : ℚ) ∧ ins.hourlyCost = price) ∧
    (∀ vol ∈ (calculateCosts pricing costInfo).1.ebsVolumes, ∀ price,
      mapGet pricing.ebsPricing vol.volumeType = some price →
      vol.monthlyCost = price * (vol.sizeGB : ℚ)) ∧
    (∀ lb ∈ (calculateCosts pricing costInfo).1.loadBalancers, ∀ price,
      mapGet pricing.lbPricing lb.lbType = some price →
      lb.monthlyCost = price * 730 * (lb.count : ℚ) ∧ lb.hourlyCost = price) := by
  have hec2 : (calculateCosts pricing costInfo).1.ec2Instances =
      costInfo.ec2Instances.map (fun i =>
        match mapGet pricing.ec2Pricing i.instanceType with
        | none => i
        | some price => { i with hourlyCost := price
                                 monthlyCost := price * 730 * (i.count : ℚ) }) := by
    unfold calculateCosts
    rw [priceEC2Instances_spec, priceEBSVolumes_spec, priceLoadBalancers_spec]
  have hebs : (calculateCosts pricing costInfo).1.ebsVolumes =
      costInfo.ebsVolumes.map (fun v =>
        match mapGet pricing.ebsPricing v.volumeType with
        | none => v
        | some price => { v with monthlyCost := price * (v.sizeGB : ℚ) }) := by
    unfold calculateCosts
    rw [priceEC2Instances_spec, priceEBSVolumes_spec, priceLoadBalancers_spec]
  have hlbs : (calculateCosts pricing costInfo).1.loadBalancers =
      costInfo.loadBalancers.map (fun l =>
        match mapGet pricing.lbPricing l.lbType with
        | none => l
        | some price => { l with hourlyCost := price
                                 monthlyCost := price * 730 * (l.count : ℚ) }) := by
    unfold calculateCosts
    rw [priceEC2Instances_spec, priceEBSVolumes_spec, priceLoadBalancers_spec]
  refine ⟨?_, ?_, ?_⟩
  · intro ins hins price hprice
    rw [hec2] at hins
    obtain ⟨i0, _, rfl⟩ := List.mem_map.1 hins
    cases h : mapGet pricing.ec2Pricing i0.instanceType with
    | none =>
      simp only [h] at hprice
      exact absurd hprice (by simp)
    | some p0 =>
      simp only [h] at hprice ⊢
      injection hprice with hprice
      subst hprice
      exact ⟨rfl, rfl⟩
  · intro vol hvol price hprice
    rw [hebs] at hvol
    obtain ⟨v0, _, rfl⟩ := List.mem_map.1 hvol
    cases h : mapGet pricing.ebsPricing v0.volumeType with
    | none =>
      simp only [h] at hprice
      exact absurd hprice (by simp)
    | some p0 =>
      simp only [h] at hprice ⊢
      injection hprice with hprice
      subst hprice
      rfl
  · intro lb hmemlb price hprice
    rw [hlbs] at hmemlb
    obtain ⟨l0, _, rfl⟩ := List.mem_map.1 hmemlb
    cases h : mapGet pricing.lbPricing l0.lbType with
    | none =>
      simp only [h] at hprice
      exact absurd hprice (by simp)
    | some p0 =>
      simp only [h] at hprice ⊢
      injection hprice with hprice
      subst hprice
      exact ⟨rfl, rfl⟩

/-- A pricing table with one price per category. -/
def c9Pricing : PricingConfig :=
  { ec2Pricing := [("m5.large", 96/1000)]
    ebsPricing := [("gp3", 8/100)]
    lbPricing := [("classic", 25/1000)] }

/-- An inventory with one entry per category, all of priced types. -/
def c9CostInfo : ClusterCostInfo :=
  { region := "us-east-1"
    ec2Instances := [{ instanceType := "m5.large", count := 2, hourlyCost := 0
                       monthlyCost := 0 }]
    ebsVolumes := [{ volumeType := "gp3", sizeGB := 100, count := 1, monthlyCost := 0 }]
    loadBalancers := [{ lbType := "classic", count := 1, hourlyCost := 0
                        monthlyCost := 0 }]
    totalCost := 0 }

/-- The priced EC2 line item `calculateCosts` emits for `c9CostInfo`. -/
def c9PricedIns : EC2Instance :=
  { instanceType := "m5.large", count := 2, hourlyCost := 96/1000
    monthlyCost := 96/1000 * 730 * 2 }

lemma c9ItemsEq : (calculateCosts c9Pricing c9CostInfo).1.ec2Instances = [c9PricedIns] := by
  simp [calculateCosts, priceEC2Instances, priceEBSVolumes, priceLoadBalancers,
    mapGet, c9Pricing, c9CostInfo, c9PricedIns]

theorem c9_monthly_cost_formulas_witness :
    c9PricedIns.monthlyCost = 96/1000 * 730 * (c9PricedIns.count : ℚ) ∧
    c9PricedIns.hourlyCost = 96/1000 :=
  (c9_monthly_cost_formulas c9Pricing c9CostInfo).1 c9PricedIns
    (by rw [c9ItemsEq]; exact List.mem_singleton.2 rfl) (96/1000)
    (by simp [c9Pricing, c9PricedIns, mapGet])
